import Mathlib

/-!
libgb: a growing byte buffer

A shallow embedding of `src/src/libgb.c` (API declared in `src/include/libgb.h`).

Modelling conventions

* `size_t` values are natural numbers below `2 ^ w`; every `size_t` addition, subtraction and
  multiplication of the source is reduced modulo `2 ^ w` explicitly.
* A heap block is the list of its bytes; the length of the list is the number of bytes the
  allocator really handed out (ghost information that the C program cannot observe).
  A pointer is `none` when it is `NULL`.
* Addresses inside a block are plain offsets (not reduced modulo the word).  A call faults with
  `Fault.out_of_bounds` exactly when it reads or writes a byte outside the block it addresses; a
  move or copy of zero bytes touches no byte and never faults.
* The allocator is an oracle passed to each call (each call asks for at most one reallocation).
* Every operation also returns a ghost trace of the allocator and initializer calls it made.
-/

namespace GrowingBuffer

/-- A `char`. -/
abbrev Byte := Nat

/-- A heap block: its bytes, as many as were allocated. -/
abbrev Block := List Byte

/-- The enumeration `LibgbError` of `libgb.h`. -/
inductive LibgbError where
  | LIBGB_ERROR_OK
  | LIBGB_ERROR_BAD_ARGUMENT
  | LIBGB_ERROR_OUT_OF_MEMORY
  | LIBGB_ERROR_INDEX
deriving DecidableEq, Repr

open LibgbError

/-- The library context `struct Libgb_`. -/
structure Libgb where
  dummy : Int
deriving DecidableEq, Repr

/-- The buffer `struct LibgbBuffer_`: `ptr` is the heap block (or `NULL`), `size` and `capacity`
are the two `size_t` fields. -/
structure LibgbBuffer where
  ptr : Option Block
  size : Nat
  capacity : Nat
deriving DecidableEq, Repr

/-- The target: `w` is the width of `size_t` in bits, `ptr_size` is `sizeof(void *)`. -/
structure Abi where
  w : Nat
  ptr_size : Nat
deriving DecidableEq, Repr

/-- The number of `size_t` values, `SIZE_MAX + 1`. -/
def Abi.modulus (abi : Abi) : Nat := 2 ^ abi.w

/-- The usual 64-bit target. -/
def abi64 : Abi := ⟨64, 8⟩

/-- The constant `INITIAL_CAPACITY`, `sizeof(void *)`. -/
def INITIAL_CAPACITY (abi : Abi) : Nat := abi.ptr_size

/-- The ways a call can fail to return. -/
inductive Fault where
  | out_of_bounds
  | null_dereference
  | non_termination
  | aborted
deriving DecidableEq, Repr

/-- Ghost events: a call of `realloc` (requested size, whether it was granted) and a call of the
initializer callback (destination offset, block size). -/
inductive Event where
  | realloc (new_size : Nat) (granted : Bool)
  | initializer (offset : Nat) (block_size : Nat)
deriving DecidableEq, Repr

/-- The allocator oracle for one call: whether it refuses the request, what the indeterminate
fresh bytes hold (by index in the block), and whether a request for zero bytes yields `NULL`. -/
structure Allocator where
  refuses : Bool
  junk : Nat → Byte
  zero_is_null : Bool

/-- An allocator that grants every request and hands out zeroed bytes. -/
def generous : Allocator := ⟨false, fun _ => 0, true⟩

/-- An allocator that refuses every request. -/
def stingy : Allocator := ⟨true, fun _ => 0, true⟩

/-- The block `realloc` hands out on success: the first `n` bytes of the old block, then
indeterminate bytes up to length `n`. -/
def resize (junk : Nat → Byte) (blk : Block) (n : Nat) : Block :=
  blk.take n ++ (List.range (n - blk.length)).map (fun i => junk (blk.length + i))

/-- The C `realloc`: `none` is a `NULL` result.  When a non-zero request is refused the old block
stays as it was. -/
def realloc (al : Allocator) (p : Option Block) (n : Nat) : Option Block :=
  if n = 0 then
    if al.zero_is_null then none else some []
  else if al.refuses then none
  else some (resize al.junk (p.getD []) n)

/-- The C `malloc`. -/
def malloc (al : Allocator) (n : Nat) : Option Block :=
  realloc al none n

/-- The C `memmove(p + dst, p + src, n)` inside one block (overlap safe). -/
def memmove (p : Option Block) (dst src n : Nat) : Except Fault (Option Block) :=
  if n = 0 then .ok p
  else
    match p with
    | none => .error Fault.null_dereference
    | some blk =>
      if src + n ≤ blk.length ∧ dst + n ≤ blk.length then
        .ok (some (blk.take dst ++ (blk.drop src).take n ++ blk.drop (dst + n)))
      else .error Fault.out_of_bounds

/-- Writing the bytes `data` into the block at offset `dst`. -/
def store (p : Option Block) (dst : Nat) (data : List Byte) : Except Fault (Option Block) :=
  if data.length = 0 then .ok p
  else
    match p with
    | none => .error Fault.null_dereference
    | some blk =>
      if dst + data.length ≤ blk.length then
        .ok (some (blk.take dst ++ data ++ blk.drop (dst + data.length)))
      else .error Fault.out_of_bounds

/-- Reading `n` bytes of the block from offset `src`. -/
def load (p : Option Block) (src n : Nat) : Except Fault (List Byte) :=
  if n = 0 then .ok []
  else
    match p with
    | none => .error Fault.null_dereference
    | some blk =>
      if src + n ≤ blk.length then .ok ((blk.drop src).take n)
      else .error Fault.out_of_bounds

/-- The subtraction of two `size_t` values. -/
def size_sub (abi : Abi) (a b : Nat) : Nat :=
  (a + abi.modulus - b % abi.modulus) % abi.modulus

/-- The addition of two `size_t` values. -/
def size_add (abi : Abi) (a b : Nat) : Nat :=
  (a + b) % abi.modulus

/-- What an operation on a buffer returns: the error code, the buffer object behind the handle
after the call (`none` when the handle is `NULL`), and the ghost trace. -/
structure Ret where
  err : LibgbError
  buffer : Option LibgbBuffer
  trace : List Event
deriving DecidableEq, Repr

/-- The callback type of `libgb_insert_initialized`: given `block_size` (the user data is in the
closure), the bytes it writes from the start of the destination, or a fault of its own. -/
abbrev Initializer := Nat → Except Fault (List Byte)

/-- The logical content of a buffer: the first `size` bytes of its block. -/
def content (b : LibgbBuffer) : List Byte :=
  (b.ptr.getD []).take b.size

/-- The allocated length of the buffer's block (ghost). -/
def block_length (b : LibgbBuffer) : Nat :=
  (b.ptr.getD []).length

/-- The function `libgb_handle_internal_error` (abbreviated `E` in the source). -/
def libgb_handle_internal_error (err : LibgbError) : Except Fault LibgbError :=
  match err with
  | LIBGB_ERROR_OK => .ok LIBGB_ERROR_OK
  | LIBGB_ERROR_BAD_ARGUMENT => .error Fault.aborted
  | LIBGB_ERROR_OUT_OF_MEMORY => .ok LIBGB_ERROR_OUT_OF_MEMORY
  | LIBGB_ERROR_INDEX => .ok LIBGB_ERROR_INDEX

/-- The loop `while (new_capacity < required_capacity) new_capacity *= 2;` of `reserve`, run for
at most `fuel` tests of its condition; `none` when the fuel runs out. -/
def doubling (m : Nat) : Nat → Nat → Nat → Option Nat
  | 0, _, _ => none
  | fuel + 1, new_capacity, required_capacity =>
    if new_capacity < required_capacity then
      doubling m fuel ((new_capacity * 2) % m) required_capacity
    else some new_capacity

/-- The function `reserve`.  The loop gets `w + 1` tests: after `w` doublings the working value
is `0` and stays `0`, so a loop that has not stopped by then never stops. -/
def reserve (abi : Abi) (al : Allocator) (libgb : Option Libgb) (buffer : Option LibgbBuffer)
    (required_capacity : Nat) : Except Fault Ret :=
  match libgb, buffer with
  | some _, some b =>
    if required_capacity ≤ b.capacity then
      .ok ⟨LIBGB_ERROR_OK, some b, []⟩
    else
      match doubling abi.modulus (abi.w + 1) b.capacity required_capacity with
      | none => .error Fault.non_termination
      | some new_capacity =>
        match realloc al b.ptr new_capacity with
        | none =>
          if new_capacity ≠ 0 then
            .ok ⟨LIBGB_ERROR_OUT_OF_MEMORY, some b, [Event.realloc new_capacity false]⟩
          else
            .ok ⟨LIBGB_ERROR_OK, some { b with ptr := none }, [Event.realloc new_capacity true]⟩
        | some new_ptr =>
          .ok ⟨LIBGB_ERROR_OK, some { b with ptr := some new_ptr },
            [Event.realloc new_capacity true]⟩
  | _, _ => .ok ⟨LIBGB_ERROR_BAD_ARGUMENT, buffer, []⟩

/-- The function `libgb_create`: `al₁` answers `malloc(INITIAL_CAPACITY)`, `al₂` answers
`malloc(sizeof(LibgbBuffer))`; `buffer` is the out-parameter (`none` when `NULL`, else the handle
it holds before the call).  Returns the error code and the out-parameter after the call. -/
def libgb_create (abi : Abi) (al₁ al₂ : Allocator) (libgb : Option Libgb)
    (buffer : Option (Option LibgbBuffer)) : LibgbError × Option (Option LibgbBuffer) :=
  match libgb, buffer with
  | some _, some _ =>
    match malloc al₁ (INITIAL_CAPACITY abi) with
    | none => (LIBGB_ERROR_OUT_OF_MEMORY, buffer)
    | some ptr =>
      if al₂.refuses then (LIBGB_ERROR_OUT_OF_MEMORY, buffer)
      else (LIBGB_ERROR_OK, some (some ⟨some ptr, 0, INITIAL_CAPACITY abi⟩))
  | _, _ => (LIBGB_ERROR_BAD_ARGUMENT, buffer)

/-- What `libgb_destroy_into` returns: the error code, the handle after the call, and the two
out-parameters (`none` when not written; `out` holds a pointer, itself possibly `NULL`). -/
structure Released where
  err : LibgbError
  buffer : Option (Option LibgbBuffer)
  out : Option (Option Block)
  out_size : Option Nat
  trace : List Event
deriving DecidableEq, Repr

/-- The function `libgb_destroy_into`.  `out_ok` and `out_size_ok` say whether the two
out-parameters are non-null pointers. -/
def libgb_destroy_into (al : Allocator) (libgb : Option Libgb)
    (buffer : Option (Option LibgbBuffer)) (out_ok out_size_ok : Bool) :
    Except Fault Released :=
  match libgb, buffer with
  | some _, some handle =>
    match handle with
    | some b =>
      let compacted := realloc al b.ptr b.size
      let ptr := if b.size = 0 ∨ compacted ≠ none then compacted else b.ptr
      if out_ok = false ∨ out_size_ok = false then .error Fault.null_dereference
      else
        .ok ⟨LIBGB_ERROR_OK, some none, some ptr, some b.size,
          [Event.realloc b.size (b.size = 0 ∨ compacted ≠ none)]⟩
    | none => .ok ⟨LIBGB_ERROR_OK, some none, none, none, []⟩
  | _, _ => .ok ⟨LIBGB_ERROR_BAD_ARGUMENT, buffer, none, none, []⟩

/-- The function `libgb_destroy`: returns the error code and the handle after the call. -/
def libgb_destroy (al : Allocator) (libgb : Option Libgb)
    (buffer : Option (Option LibgbBuffer)) :
    Except Fault (LibgbError × Option (Option LibgbBuffer)) :=
  match libgb, buffer with
  | some _, some _ =>
    match libgb_destroy_into al libgb buffer true true with
    | .error f => .error f
    | .ok r =>
      match libgb_handle_internal_error r.err with
      | .error f => .error f
      | .ok err => .ok (err, r.buffer)
  | _, _ => .ok (LIBGB_ERROR_BAD_ARGUMENT, buffer)

/-- The function `libgb_get_size`: the error code and the value stored through `size`. -/
def libgb_get_size (libgb : Option Libgb) (buffer : Option LibgbBuffer) (size_ok : Bool) :
    LibgbError × Option Nat :=
  match libgb, buffer, size_ok with
  | some _, some b, true => (LIBGB_ERROR_OK, some b.size)
  | _, _, _ => (LIBGB_ERROR_BAD_ARGUMENT, none)

/-- The function `libgb_insert_initialized`. -/
def libgb_insert_initialized (abi : Abi) (al : Allocator) (libgb : Option Libgb)
    (buffer : Option LibgbBuffer) (offset block_size : Nat) (initializer : Option Initializer) :
    Except Fault Ret :=
  match libgb, buffer, initializer with
  | some _, some b, some init =>
    if block_size = 0 then .ok ⟨LIBGB_ERROR_OK, some b, []⟩
    else if b.size < offset then .ok ⟨LIBGB_ERROR_INDEX, some b, []⟩
    else
      match reserve abi al libgb buffer (size_add abi offset block_size) with
      | .error f => .error f
      | .ok r =>
        match libgb_handle_internal_error r.err with
        | .error f => .error f
        | .ok LIBGB_ERROR_OK =>
          match r.buffer with
          | none => .error Fault.null_dereference
          | some b₁ =>
            match memmove b₁.ptr (offset + block_size) offset (size_sub abi b₁.size offset) with
            | .error f => .error f
            | .ok p₁ =>
              match init block_size with
              | .error f => .error f
              | .ok data =>
                match store p₁ offset data with
                | .error f => .error f
                | .ok p₂ =>
                  .ok ⟨LIBGB_ERROR_OK,
                    some { b₁ with ptr := p₂, size := size_add abi b₁.size block_size },
                    r.trace ++ [Event.initializer offset block_size]⟩
        | .ok err => .ok ⟨err, r.buffer, r.trace⟩
  | _, _, _ => .ok ⟨LIBGB_ERROR_BAD_ARGUMENT, buffer, []⟩

/-- The callback `initialize_buffer` with its user data `bytes`: `memcpy(block, bytes,
block_size)`. -/
def initialize_buffer (bytes : Option (List Byte)) : Initializer :=
  fun block_size => load bytes 0 block_size

/-- The function `libgb_append_buffer`; it reads `buffer->size` before any check. -/
def libgb_append_buffer (abi : Abi) (al : Allocator) (libgb : Option Libgb)
    (buffer : Option LibgbBuffer) (bytes : Option (List Byte)) (size : Nat) :
    Except Fault Ret :=
  match buffer with
  | none => .error Fault.null_dereference
  | some b =>
    libgb_insert_initialized abi al libgb buffer b.size size (some (initialize_buffer bytes))

/-- The C `strlen` on a region: the number of bytes before the first zero byte, a fault when the
region holds no zero byte. -/
def strlen : List Byte → Except Fault Nat
  | [] => .error Fault.out_of_bounds
  | c :: rest =>
    if c = 0 then .ok 0
    else
      match strlen rest with
      | .error f => .error f
      | .ok n => .ok (n + 1)

/-- The function `libgb_append_string`. -/
def libgb_append_string (abi : Abi) (al : Allocator) (libgb : Option Libgb)
    (buffer : Option LibgbBuffer) (string : Option (List Byte)) : Except Fault Ret :=
  match string with
  | none => .ok ⟨LIBGB_ERROR_BAD_ARGUMENT, buffer, []⟩
  | some s =>
    match strlen s with
    | .error f => .error f
    | .ok n => libgb_append_buffer abi al libgb buffer string (size_add abi n 1)

/-- The function `libgb_append_char`. -/
def libgb_append_char (abi : Abi) (al : Allocator) (libgb : Option Libgb)
    (buffer : Option LibgbBuffer) (c : Byte) : Except Fault Ret :=
  libgb_append_buffer abi al libgb buffer (some [c]) 1

/-- The function `libgb_remove`. -/
def libgb_remove (abi : Abi) (libgb : Option Libgb) (buffer : Option LibgbBuffer)
    (offset size : Nat) : Except Fault Ret :=
  match libgb, buffer with
  | some _, some b =>
    if size = 0 then .ok ⟨LIBGB_ERROR_OK, some b, []⟩
    else if b.size < size_add abi offset size then .ok ⟨LIBGB_ERROR_INDEX, some b, []⟩
    else
      match memmove b.ptr offset (offset + size)
          (size_sub abi (size_sub abi b.size offset) size) with
      | .error f => .error f
      | .ok p => .ok ⟨LIBGB_ERROR_OK, some { b with ptr := p, size := size_sub abi b.size size }, []⟩
  | _, _ => .ok ⟨LIBGB_ERROR_BAD_ARGUMENT, buffer, []⟩

/-- The function `libgb_drop`; it checks only `buffer`. -/
def libgb_drop (abi : Abi) (libgb : Option Libgb) (buffer : Option LibgbBuffer)
    (block_size : Nat) : Except Fault Ret :=
  match buffer with
  | none => .ok ⟨LIBGB_ERROR_BAD_ARGUMENT, buffer, []⟩
  | some b => libgb_remove abi libgb buffer (size_sub abi b.size block_size) block_size

/-- What `libgb_read` returns: the usual result and the external region after the call. -/
structure ReadRet where
  ret : Ret
  bytes : Option (List Byte)
deriving DecidableEq, Repr

/-- The function `libgb_read`: `bytes` is the external destination region (`none` when `NULL`). -/
def libgb_read (abi : Abi) (libgb : Option Libgb) (buffer : Option LibgbBuffer) (offset : Nat)
    (bytes : Option (List Byte)) (size : Nat) : Except Fault ReadRet :=
  match libgb, buffer with
  | some _, some b =>
    if size ≠ 0 ∧ bytes = none then .ok ⟨⟨LIBGB_ERROR_BAD_ARGUMENT, buffer, []⟩, bytes⟩
    else if size = 0 then .ok ⟨⟨LIBGB_ERROR_OK, some b, []⟩, bytes⟩
    else if b.size < size_add abi offset size then .ok ⟨⟨LIBGB_ERROR_INDEX, some b, []⟩, bytes⟩
    else
      match load b.ptr offset size with
      | .error f => .error f
      | .ok data =>
        match store bytes 0 data with
        | .error f => .error f
        | .ok dest => .ok ⟨⟨LIBGB_ERROR_OK, some b, []⟩, dest⟩
  | _, _ => .ok ⟨⟨LIBGB_ERROR_BAD_ARGUMENT, buffer, []⟩, bytes⟩

/-- The function `libgb_write`: `bytes` is the external source region (`none` when `NULL`). -/
def libgb_write (abi : Abi) (libgb : Option Libgb) (buffer : Option LibgbBuffer) (offset : Nat)
    (bytes : Option (List Byte)) (size : Nat) : Except Fault Ret :=
  match libgb, buffer with
  | some _, some b =>
    if size ≠ 0 ∧ bytes = none then .ok ⟨LIBGB_ERROR_BAD_ARGUMENT, buffer, []⟩
    else if size = 0 then .ok ⟨LIBGB_ERROR_OK, some b, []⟩
    else if b.size < size_add abi offset size then .ok ⟨LIBGB_ERROR_INDEX, some b, []⟩
    else
      match load bytes 0 size with
      | .error f => .error f
      | .ok data =>
        match store b.ptr offset data with
        | .error f => .error f
        | .ok p => .ok ⟨LIBGB_ERROR_OK, some { b with ptr := p }, []⟩
  | _, _ => .ok ⟨LIBGB_ERROR_BAD_ARGUMENT, buffer, []⟩

/-- A well-formed buffer: its block exists, holds at least `size` bytes, and is smaller than the
address space. -/
def valid (abi : Abi) (b : LibgbBuffer) : Prop :=
  ∃ blk, b.ptr = some blk ∧ b.size ≤ blk.length ∧ blk.length < abi.modulus

/-- The buffer states reachable from `libgb_create` by calls of the public operations on a
non-null context and handle, whatever each call returns, as long as it returns. -/
inductive Reachable (abi : Abi) : LibgbBuffer → Prop where
  | create (al₁ al₂ : Allocator) (ctx : Libgb) (h : Option LibgbBuffer) (b : LibgbBuffer) :
      libgb_create abi al₁ al₂ (some ctx) (some h) = (LIBGB_ERROR_OK, some (some b)) →
      Reachable abi b
  | insert_initialized (al : Allocator) (ctx : Libgb) (b : LibgbBuffer) (offset block_size : Nat)
      (init : Option Initializer) (r : Ret) (b₁ : LibgbBuffer) :
      Reachable abi b → offset < abi.modulus → block_size < abi.modulus →
      libgb_insert_initialized abi al (some ctx) (some b) offset block_size init = .ok r →
      r.buffer = some b₁ → Reachable abi b₁
  | append_buffer (al : Allocator) (ctx : Libgb) (b : LibgbBuffer) (bytes : Option (List Byte))
      (size : Nat) (r : Ret) (b₁ : LibgbBuffer) :
      Reachable abi b → size < abi.modulus →
      libgb_append_buffer abi al (some ctx) (some b) bytes size = .ok r →
      r.buffer = some b₁ → Reachable abi b₁
  | append_string (al : Allocator) (ctx : Libgb) (b : LibgbBuffer) (string : Option (List Byte))
      (r : Ret) (b₁ : LibgbBuffer) :
      Reachable abi b →
      libgb_append_string abi al (some ctx) (some b) string = .ok r →
      r.buffer = some b₁ → Reachable abi b₁
  | append_char (al : Allocator) (ctx : Libgb) (b : LibgbBuffer) (c : Byte)
      (r : Ret) (b₁ : LibgbBuffer) :
      Reachable abi b →
      libgb_append_char abi al (some ctx) (some b) c = .ok r →
      r.buffer = some b₁ → Reachable abi b₁
  | remove (ctx : Libgb) (b : LibgbBuffer) (offset size : Nat) (r : Ret) (b₁ : LibgbBuffer) :
      Reachable abi b → offset < abi.modulus → size < abi.modulus →
      libgb_remove abi (some ctx) (some b) offset size = .ok r →
      r.buffer = some b₁ → Reachable abi b₁
  | drop (ctx : Libgb) (b : LibgbBuffer) (block_size : Nat) (r : Ret) (b₁ : LibgbBuffer) :
      Reachable abi b → block_size < abi.modulus →
      libgb_drop abi (some ctx) (some b) block_size = .ok r →
      r.buffer = some b₁ → Reachable abi b₁
  | read (ctx : Libgb) (b : LibgbBuffer) (offset : Nat) (bytes : Option (List Byte)) (size : Nat)
      (r : ReadRet) (b₁ : LibgbBuffer) :
      Reachable abi b → offset < abi.modulus → size < abi.modulus →
      libgb_read abi (some ctx) (some b) offset bytes size = .ok r →
      r.ret.buffer = some b₁ → Reachable abi b₁
  | write (ctx : Libgb) (b : LibgbBuffer) (offset : Nat) (bytes : Option (List Byte)) (size : Nat)
      (r : Ret) (b₁ : LibgbBuffer) :
      Reachable abi b → offset < abi.modulus → size < abi.modulus →
      libgb_write abi (some ctx) (some b) offset bytes size = .ok r →
      r.buffer = some b₁ → Reachable abi b₁

/-- A context object. -/
def ctx0 : Libgb := ⟨0⟩

/-- The buffer `libgb_create` makes on the 64-bit target when the allocator hands out zeroed
bytes. -/
def fresh64 : LibgbBuffer := ⟨some [0, 0, 0, 0, 0, 0, 0, 0], 0, 8⟩

/-- The buffer `fresh64` after appending the eight bytes 1..8. -/
def full64 : LibgbBuffer := ⟨some [1, 2, 3, 4, 5, 6, 7, 8], 8, 8⟩

/-- The buffer `fresh64` after appending the nine bytes 1..9. -/
def nine64 : LibgbBuffer := ⟨some [1, 2, 3, 4, 5, 6, 7, 8, 9, 0, 0, 0, 0, 0, 0, 0], 9, 8⟩

/-- The buffer `fresh64` after appending the string "hi". -/
def hi64 : LibgbBuffer := ⟨some [104, 105, 0, 0, 0, 0, 0, 0], 3, 8⟩

/-- The buffer `hi64` after inserting the two bytes 88, 0 at offset 0. -/
def inserted64 : LibgbBuffer := ⟨some [88, 0, 104, 105, 0, 0, 0, 0], 5, 8⟩

/-- The buffer `inserted64` after removing two bytes at offset 0. -/
def restored64 : LibgbBuffer := ⟨some [104, 105, 0, 105, 0, 0, 0, 0], 3, 8⟩

/-- The number of `realloc` calls in a trace. -/
def realloc_calls : List Event → Nat
  | [] => 0
  | Event.realloc _ _ :: tr => realloc_calls tr + 1
  | Event.initializer _ _ :: tr => realloc_calls tr

/-- A caller that appends the given bytes one at a time with `libgb_append_char`; it returns the
buffer after the last call and the trace of all the calls. -/
def append_chars (abi : Abi) (al : Allocator) (ctx : Libgb) :
    LibgbBuffer → List Byte → Except Fault (LibgbBuffer × List Event)
  | b, [] => .ok (b, [])
  | b, c :: cs =>
    match libgb_append_char abi al (some ctx) (some b) c with
    | .error f => .error f
    | .ok r =>
      match r.buffer with
      | none => .error Fault.null_dereference
      | some b₁ =>
        match append_chars abi al ctx b₁ cs with
        | .error f => .error f
        | .ok (b₂, tr) => .ok (b₂, r.trace ++ tr)

/-- The buffer `fresh64` after a `libgb_drop` of one byte. -/
def dropped64 : LibgbBuffer := ⟨some [0, 0, 0, 0, 0, 0, 0, 0], 18446744073709551615, 8⟩

/-- The buffer `fresh64` after appending the seventeen bytes 1..17: a block of 32 bytes. -/
def seventeen64 : LibgbBuffer :=
  ⟨some [1, 2, 3, 4, 5, 6, 7, 8, 9, 10, 11, 12, 13, 14, 15, 16, 17,
      0, 0, 0, 0, 0, 0, 0, 0, 0, 0, 0, 0, 0, 0, 0], 17, 8⟩

/-- The buffer `seventeen64` after `reserve` of 10 bytes: a block of 16 bytes, size still 17. -/
def shrunk64 : LibgbBuffer :=
  ⟨some [1, 2, 3, 4, 5, 6, 7, 8, 9, 10, 11, 12, 13, 14, 15, 16], 17, 8⟩

/-! ## Arithmetic of `size_t` -/

theorem modulus_pos (abi : Abi) : 0 < abi.modulus := by
  unfold Abi.modulus
  exact Nat.pos_pow_of_pos _ (by decide)

theorem size_add_eq (abi : Abi) {a b : Nat} (h : a + b < abi.modulus) :
    size_add abi a b = a + b := by
  unfold size_add
  exact Nat.mod_eq_of_lt h

theorem size_sub_eq (abi : Abi) {a b : Nat} (hb : b ≤ a) (ha : a < abi.modulus) :
    size_sub abi a b = a - b := by
  unfold size_sub
  have hb' : b % abi.modulus = b := Nat.mod_eq_of_lt (by omega)
  rw [hb']
  have : a + abi.modulus - b = (a - b) + abi.modulus := by omega
  rw [this, Nat.add_mod_right]
  exact Nat.mod_eq_of_lt (by omega)

/-! ## The fuel of the doubling loop -/

theorem doubling_zero (m r : Nat) (hr : 0 < r) : ∀ fuel, doubling m fuel 0 r = none := by
  intro fuel
  induction fuel with
  | zero => rfl
  | succ f ih => simp [doubling, hr, ih]

theorem doubling_mono (m r : Nat) :
    ∀ (fuel c k j : Nat), doubling m fuel c r = some k → doubling m (fuel + j) c r = some k := by
  intro fuel
  induction fuel with
  | zero => intro c k j h; simp [doubling] at h
  | succ f ih =>
    intro c k j h
    have e : f + 1 + j = (f + j) + 1 := by omega
    rw [e]
    unfold doubling at h ⊢
    by_cases hc : c < r
    · simp only [hc, if_true] at h ⊢
      exact ih _ _ _ h
    · simp only [hc, if_false] at h ⊢
      exact h

theorem doubling_stuck (w r : Nat) :
    ∀ (i c : Nat), (c * 2 ^ i) % 2 ^ w = 0 → doubling (2 ^ w) (i + 1) c r = none →
      ∀ fuel, doubling (2 ^ w) fuel c r = none := by
  intro i
  induction i with
  | zero =>
    intro c hc h fuel
    unfold doubling at h
    by_cases hlt : c < r
    · cases fuel with
      | zero => rfl
      | succ f =>
        unfold doubling
        simp only [hlt, if_true]
        have : (c * 2) % 2 ^ w = 0 := by
          simp only [pow_zero, mul_one] at hc
          rw [Nat.mul_mod, hc]; simp
        rw [this]
        exact doubling_zero _ _ (by omega) f
    · simp [hlt] at h
  | succ i ih =>
    intro c hc h fuel
    unfold doubling at h
    by_cases hlt : c < r
    · simp only [hlt, if_true] at h
      have hc' : ((c * 2) % 2 ^ w * 2 ^ i) % 2 ^ w = 0 := by
        rw [Nat.mod_mul_mod]
        have : c * 2 * 2 ^ i = c * 2 ^ (i + 1) := by ring
        rw [this]; exact hc
      have := ih _ hc' h
      cases fuel with
      | zero => rfl
      | succ f =>
        unfold doubling
        simp only [hlt, if_true]
        exact this f
    · simp [hlt] at h

/-- The fuel `w + 1` that `reserve` gives the loop is exact: a run that has not stopped within it
never stops. -/
theorem doubling_diverges (abi : Abi) (c r : Nat)
    (h : doubling abi.modulus (abi.w + 1) c r = none) :
    ∀ fuel, doubling abi.modulus fuel c r = none := by
  unfold Abi.modulus at h ⊢
  exact doubling_stuck abi.w r abi.w c (Nat.mul_mod_left _ _) h

theorem doubling_ge (m r : Nat) :
    ∀ (fuel c k : Nat), doubling m fuel c r = some k → r ≤ k := by
  intro fuel
  induction fuel with
  | zero => intro c k h; simp [doubling] at h
  | succ f ih =>
    intro c k h
    unfold doubling at h
    by_cases hc : c < r
    · simp only [hc, if_true] at h
      exact ih _ _ h
    · simp only [hc, if_false, Option.some.injEq] at h
      omega

theorem doubling_lt (m r : Nat) (hm : 0 < m) :
    ∀ (fuel c k : Nat), doubling m fuel c r = some k → k = c ∨ k < m := by
  intro fuel
  induction fuel with
  | zero => intro c k h; simp [doubling] at h
  | succ f ih =>
    intro c k h
    unfold doubling at h
    by_cases hc : c < r
    · simp only [hc, if_true] at h
      rcases ih _ _ h with e | e
      · right; rw [e]; exact Nat.mod_lt _ hm
      · right; exact e
    · simp only [hc, if_false, Option.some.injEq] at h
      left; exact h.symm

/-! ## Memory primitives -/

theorem resize_length (junk : Nat → Byte) (blk : Block) (n : Nat) :
    (resize junk blk n).length = n := by
  simp [resize, List.length_take]
  omega

theorem resize_take (junk : Nat → Byte) (blk : Block) (n j : Nat) (h₁ : j ≤ blk.length)
    (h₂ : j ≤ n) : (resize junk blk n).take j = blk.take j := by
  unfold resize
  rw [List.take_append_of_le_length (by simp [List.length_take]; omega), List.take_take]
  congr 1
  omega

theorem memmove_some (blk : Block) (dst src n : Nat) (h₁ : src + n ≤ blk.length)
    (h₂ : dst + n ≤ blk.length) :
    memmove (some blk) dst src n
      = .ok (some (blk.take dst ++ (blk.drop src).take n ++ blk.drop (dst + n))) := by
  unfold memmove
  by_cases hn : n = 0
  · subst hn; simp
  · simp [hn, h₁, h₂]

theorem memmove_fault (blk : Block) (dst src n : Nat) (hn : 0 < n)
    (h : ¬ (src + n ≤ blk.length ∧ dst + n ≤ blk.length)) :
    memmove (some blk) dst src n = .error Fault.out_of_bounds := by
  unfold memmove
  have hn0 : n ≠ 0 := by omega
  simp only [hn0, if_false, h]

theorem store_some (blk : Block) (dst : Nat) (data : List Byte)
    (h : dst + data.length ≤ blk.length) :
    store (some blk) dst data
      = .ok (some (blk.take dst ++ data ++ blk.drop (dst + data.length))) := by
  unfold store
  by_cases hn : data.length = 0
  · have : data = [] := List.eq_nil_of_length_eq_zero hn
    subst this; simp
  · simp [hn, h]

theorem store_fault (blk : Block) (dst : Nat) (data : List Byte) (hn : 0 < data.length)
    (h : ¬ dst + data.length ≤ blk.length) :
    store (some blk) dst data = .error Fault.out_of_bounds := by
  unfold store
  have hn0 : data.length ≠ 0 := by omega
  simp only [hn0, if_false, h]

theorem load_some (blk : Block) (src n : Nat) (h : src + n ≤ blk.length) :
    load (some blk) src n = .ok ((blk.drop src).take n) := by
  unfold load
  by_cases hn : n = 0
  · subst hn; simp
  · simp [hn, h]

/-! ## The capacity manager -/

theorem reserve_ok (abi : Abi) (al : Allocator) (ctx : Libgb) (b : LibgbBuffer) (req : Nat)
    (r : Ret) (blk : Block) (hp : b.ptr = some blk) (hl : blk.length < abi.modulus)
    (h : reserve abi al (some ctx) (some b) req = .ok r) (herr : r.err = LIBGB_ERROR_OK) :
    ∃ blk₁, r.buffer = some ⟨some blk₁, b.size, b.capacity⟩ ∧ blk₁.length < abi.modulus
      ∧ ∀ j, j ≤ blk.length → j ≤ blk₁.length → blk₁.take j = blk.take j := by
  unfold reserve at h
  by_cases hreq : req ≤ b.capacity
  · simp only [hreq, if_true, Except.ok.injEq] at h
    subst h
    refine ⟨blk, ?_, hl, fun _ _ _ => rfl⟩
    simp [← hp]
  · simp only [hreq, if_false] at h
    cases hd : doubling abi.modulus (abi.w + 1) b.capacity req with
    | none => simp [hd] at h
    | some k =>
      have hge := doubling_ge _ _ _ _ _ hd
      have hlt : k < abi.modulus := by
        rcases doubling_lt _ _ (modulus_pos abi) _ _ _ hd with e | e
        · omega
        · exact e
      have hk : k ≠ 0 := by omega
      simp only [hd, realloc, hk, if_false, hp, Option.getD_some] at h
      cases href : al.refuses with
      | true =>
        simp only [href, if_true, ne_eq, hk, not_false_eq_true, Except.ok.injEq] at h
        subst h
        simp at herr
      | false =>
        simp only [href, Bool.false_eq_true, if_false, Except.ok.injEq] at h
        subst h
        refine ⟨resize al.junk blk k, ?_, ?_, ?_⟩
        · simp
        · rw [resize_length]; exact hlt
        · intro j hj₁ hj₂
          rw [resize_length] at hj₂
          exact resize_take _ _ _ _ hj₁ hj₂

/-! ## The successful paths of insert and remove -/

theorem take_shift_right (blk : Block) (offset n s : Nat) (data : List Byte)
    (hoff : offset ≤ s) (hlen : data.length = n) (hb : s + n ≤ blk.length) :
    ((blk.take (offset + n) ++ (blk.drop offset).take (s - offset)
          ++ blk.drop (offset + n + (s - offset))).take offset
        ++ data
        ++ (blk.take (offset + n) ++ (blk.drop offset).take (s - offset)
          ++ blk.drop (offset + n + (s - offset))).drop (offset + data.length)).take (s + n)
      = (blk.take s).take offset ++ data ++ (blk.take s).drop offset := by
  have hA : (blk.take (offset + n)).length = offset + n := by
    simp [List.length_take]; omega
  have h1 : (blk.take (offset + n) ++ (blk.drop offset).take (s - offset)
          ++ blk.drop (offset + n + (s - offset))).take offset = blk.take offset := by
    rw [List.append_assoc, List.take_append_of_le_length (by omega), List.take_take]
    congr 1; omega
  have h2 : (blk.take (offset + n) ++ (blk.drop offset).take (s - offset)
          ++ blk.drop (offset + n + (s - offset))).drop (offset + data.length)
        = (blk.drop offset).take (s - offset) ++ blk.drop (offset + n + (s - offset)) := by
    rw [List.append_assoc, hlen, List.drop_left' hA]
  rw [h1, h2]
  have h3 : (blk.take offset ++ data ++ (blk.drop offset).take (s - offset)).length = s + n := by
    simp [List.length_take, List.length_drop, hlen]; omega
  rw [← List.append_assoc, List.take_left' h3, List.take_take, List.drop_take]
  congr 2
  congr 1
  omega

/-- The successful path of `libgb_insert_initialized` on a well-formed buffer: the size grows by
the block size and the block's bytes land between the two halves of the old content. -/
theorem insert_ok (abi : Abi) (al : Allocator) (ctx : Libgb) (b : LibgbBuffer) (offset n : Nat)
    (init : Initializer) (data : List Byte) (r : Ret) (hv : valid abi b) (hoff : offset ≤ b.size)
    (hn : 0 < n) (hinit : init n = .ok data) (hlen : data.length = n)
    (h : libgb_insert_initialized abi al (some ctx) (some b) offset n (some init) = .ok r)
    (herr : r.err = LIBGB_ERROR_OK) :
    ∃ b₁, r.buffer = some b₁ ∧ valid abi b₁ ∧ b₁.size = b.size + n
      ∧ content b₁ = (content b).take offset ++ data ++ (content b).drop offset
      ∧ b₁.capacity = b.capacity := by
  obtain ⟨blk, hp, hs, hl⟩ := hv
  have hn0 : n ≠ 0 := by omega
  have hidx : ¬ b.size < offset := by omega
  unfold libgb_insert_initialized at h
  simp only [hn0, hidx, if_false] at h
  cases hres : reserve abi al (some ctx) (some b) (size_add abi offset n) with
  | error f => simp [hres] at h
  | ok r₀ =>
    simp only [hres] at h
    cases he : r₀.err with
    | LIBGB_ERROR_BAD_ARGUMENT => simp [he, libgb_handle_internal_error] at h
    | LIBGB_ERROR_OUT_OF_MEMORY =>
      simp only [he, libgb_handle_internal_error, Except.ok.injEq] at h
      subst h; simp at herr
    | LIBGB_ERROR_INDEX =>
      simp only [he, libgb_handle_internal_error, Except.ok.injEq] at h
      subst h; simp at herr
    | LIBGB_ERROR_OK =>
      obtain ⟨blk₁, hbuf, hl₁, htake⟩ := reserve_ok abi al ctx b _ r₀ blk hp hl hres he
      have hsub : size_sub abi b.size offset = b.size - offset :=
        size_sub_eq abi hoff (by omega)
      simp only [he, libgb_handle_internal_error, hbuf, hsub, hinit] at h
      by_cases hb : b.size + n ≤ blk₁.length
      · have hadd : size_add abi b.size n = b.size + n := size_add_eq abi (by omega)
        rw [memmove_some blk₁ _ _ _ (by omega) (by omega)] at h
        simp only at h
        rw [store_some _ _ _ (by simp [List.length_take, List.length_drop, hlen]; omega)] at h
        simp only [Except.ok.injEq, hadd] at h
        subst h
        refine ⟨_, rfl, ⟨_, rfl, ?_, ?_⟩, rfl, ?_, rfl⟩
        · simp [List.length_take, List.length_drop, hlen]; omega
        · simp [List.length_take, List.length_drop, hlen]; omega
        · simp only [content, hp, Option.getD_some]
          rw [take_shift_right blk₁ offset n b.size data hoff hlen hb]
          rw [htake b.size hs (by omega)]
      · exfalso
        by_cases hz : b.size - offset = 0
        · simp only [hz, memmove, if_true] at h
          rw [store_fault _ _ _ (by omega) (by omega)] at h
          simp at h
        · rw [memmove_fault _ _ _ _ (by omega) (by omega)] at h
          simp at h

theorem take_shift_left (blk : List Byte) (offset n s : Nat) (h : offset + n ≤ s)
    (hs : s ≤ blk.length) :
    (blk.take offset ++ (blk.drop (offset + n)).take (s - offset - n)
        ++ blk.drop (offset + (s - offset - n))).take (s - n)
      = (blk.take s).take offset ++ (blk.take s).drop (offset + n) := by
  have h1 : (blk.take offset ++ (blk.drop (offset + n)).take (s - offset - n)).length = s - n := by
    simp [List.length_take, List.length_drop]; omega
  rw [List.take_left' h1]
  rw [List.take_take, List.drop_take]
  have : min offset s = offset := by omega
  rw [this]
  have : s - (offset + n) = s - offset - n := by omega
  rw [this]

/-- The successful path of `libgb_remove` on a well-formed buffer. -/
theorem remove_ok (abi : Abi) (ctx : Libgb) (b : LibgbBuffer) (offset n : Nat)
    (hv : valid abi b) (hn : 0 < n) (h : offset + n ≤ b.size) :
    ∃ b₁, libgb_remove abi (some ctx) (some b) offset n = .ok ⟨LIBGB_ERROR_OK, some b₁, []⟩
      ∧ b₁.size = b.size - n
      ∧ content b₁ = (content b).take offset ++ (content b).drop (offset + n)
      ∧ b₁.capacity = b.capacity := by
  obtain ⟨blk, hp, hs, hl⟩ := hv
  have hadd : size_add abi offset n = offset + n := size_add_eq abi (by omega)
  have hsub1 : size_sub abi b.size offset = b.size - offset :=
    size_sub_eq abi (by omega) (by omega)
  have hsub2 : size_sub abi (b.size - offset) n = b.size - offset - n :=
    size_sub_eq abi (by omega) (by omega)
  have hsub3 : size_sub abi b.size n = b.size - n := size_sub_eq abi (by omega) (by omega)
  have hn0 : n ≠ 0 := by omega
  have hidx : ¬ b.size < offset + n := by omega
  unfold libgb_remove
  simp only [hadd, hsub1, hsub2, hsub3, hn0, hidx, if_false]
  unfold memmove
  by_cases hc : b.size - offset - n = 0
  · simp only [hc, if_true]
    refine ⟨_, rfl, rfl, ?_, rfl⟩
    simp only [content, hp, Option.getD_some]
    have e : b.size = offset + n := by omega
    rw [List.take_take, List.drop_take]
    have e1 : b.size - n = offset := by omega
    have e2 : min offset b.size = offset := by omega
    have e3 : b.size - (offset + n) = 0 := by omega
    rw [e1, e2, e3]
    simp
  · have hb : offset + n + (b.size - offset - n) ≤ blk.length
        ∧ offset + (b.size - offset - n) ≤ blk.length := by omega
    simp only [hc, if_false, hp, hb, and_self, if_true]
    refine ⟨_, rfl, rfl, ?_, rfl⟩
    simp only [content, hp, Option.getD_some]
    exact take_shift_left blk offset n b.size h hs

/-! ## Concrete buffers -/

theorem valid_full64 : valid abi64 full64 := ⟨_, rfl, by decide, by decide⟩

theorem valid_hi64 : valid abi64 hi64 := ⟨_, rfl, by decide, by decide⟩

theorem reachable_fresh64 : Reachable abi64 fresh64 :=
  Reachable.create generous generous ctx0 none fresh64 rfl

theorem reachable_full64 : Reachable abi64 full64 :=
  Reachable.append_buffer generous ctx0 fresh64 (some [1, 2, 3, 4, 5, 6, 7, 8]) 8
    ⟨LIBGB_ERROR_OK, some full64, [Event.initializer 0 8]⟩ full64 reachable_fresh64
    (by decide) rfl rfl

theorem reachable_nine64 : Reachable abi64 nine64 :=
  Reachable.append_buffer generous ctx0 fresh64 (some [1, 2, 3, 4, 5, 6, 7, 8, 9]) 9
    ⟨LIBGB_ERROR_OK, some nine64, [Event.realloc 16 true, Event.initializer 0 9]⟩ nine64
    reachable_fresh64 (by decide) rfl rfl

/-! ## C1: structural insert -/

/-- C1 at its failing input: the buffer holding the eight bytes 1..8 is reachable, its size is 8
and its block has 8 bytes; inserting one byte at offset 0 reserves `0 + 1` bytes, which succeeds
without reallocating, and then shifts the eight bytes to offsets 1..9 of the 8-byte block: the
call writes outside the allocated block instead of returning `LIBGB_ERROR_OK` with size 9. -/
theorem insert_overruns_block :
    Reachable abi64 full64
    ∧ full64.size = 8 ∧ block_length full64 = 8 ∧ 0 ≤ full64.size
    ∧ full64.size + 1 < abi64.modulus
    ∧ reserve abi64 generous (some ctx0) (some full64) (size_add abi64 0 1)
        = .ok ⟨LIBGB_ERROR_OK, some full64, []⟩
    ∧ libgb_insert_initialized abi64 generous (some ctx0) (some full64) 0 1
          (some (fun _ => .ok [9]))
        = .error Fault.out_of_bounds :=
  ⟨reachable_full64, rfl, rfl, by decide, by decide, rfl, rfl⟩

/-! ## C2: structural remove -/

/-- C2: on a well-formed buffer, removing `n > 0` bytes at `offset` with `offset + n ≤ size`
returns `LIBGB_ERROR_OK`, makes the size `size - n`, makes the content
`c[0..offset) ++ c[offset+n..size)` and leaves the capacity as it was. -/
theorem libgb_remove_contract (abi : Abi) (ctx : Libgb) (b : LibgbBuffer) (offset n : Nat)
    (hv : valid abi b) (hn : 0 < n) (h : offset + n ≤ b.size) :
    ∃ b₁, libgb_remove abi (some ctx) (some b) offset n = .ok ⟨LIBGB_ERROR_OK, some b₁, []⟩
      ∧ b₁.size = b.size - n
      ∧ content b₁ = (content b).take offset ++ (content b).drop (offset + n)
      ∧ b₁.capacity = b.capacity := by
  obtain ⟨b₁, hcall, hsize, hcontent, hcap⟩ := remove_ok abi ctx b offset n hv hn h
  exact ⟨b₁, hcall, hsize, hcontent, hcap⟩

theorem libgb_remove_contract_witness :
    valid abi64 full64 ∧ 0 < 3 ∧ 2 + 3 ≤ full64.size ∧
    ∃ b₁, libgb_remove abi64 (some ctx0) (some full64) 2 3 = .ok ⟨LIBGB_ERROR_OK, some b₁, []⟩
      ∧ b₁.size = full64.size - 3
      ∧ content b₁ = (content full64).take 2 ++ (content full64).drop (2 + 3)
      ∧ b₁.capacity = full64.capacity :=
  ⟨valid_full64, by decide, by decide,
    libgb_remove_contract abi64 ctx0 full64 2 3 valid_full64 (by decide) (by decide)⟩

/-! ## C3: size and capacity -/

/-- C3 at its failing input: appending nine bytes to a fresh buffer reallocates the block to 16
bytes but `reserve` never stores the new capacity, so the reachable state has size 9 and
capacity 8. -/
theorem size_exceeds_capacity :
    libgb_append_buffer abi64 generous (some ctx0) (some fresh64)
        (some [1, 2, 3, 4, 5, 6, 7, 8, 9]) 9
      = .ok ⟨LIBGB_ERROR_OK, some nine64, [Event.realloc 16 true, Event.initializer 0 9]⟩
    ∧ Reachable abi64 nine64 ∧ nine64.size = 9 ∧ nine64.capacity = 8
    ∧ ¬ nine64.size ≤ nine64.capacity :=
  ⟨rfl, reachable_nine64, rfl, rfl, by decide⟩

/-! ## C4: index errors of read, write and remove -/

/-- C4 at its failing input: on the fresh buffer (size 0) with `offset = SIZE_MAX` and `n = 1`
the sum `offset + n` wraps to 0, the test `size < offset + n` is false, and none of the three
calls returns `LIBGB_ERROR_INDEX`: `libgb_read` and `libgb_write` access a byte outside the
block, `libgb_remove` returns `LIBGB_ERROR_OK` and sets the size to `SIZE_MAX`.  The scenario of
the specification (read 1 byte at offset 0 of the fresh buffer) does return
`LIBGB_ERROR_INDEX` and leaves the buffer as it was. -/
theorem index_check_wraps :
    fresh64.size < 18446744073709551615 + 1
    ∧ 18446744073709551615 < abi64.modulus
    ∧ size_add abi64 18446744073709551615 1 = 0
    ∧ libgb_read abi64 (some ctx0) (some fresh64) 18446744073709551615 (some [0]) 1
        = .error Fault.out_of_bounds
    ∧ libgb_write abi64 (some ctx0) (some fresh64) 18446744073709551615 (some [0]) 1
        = .error Fault.out_of_bounds
    ∧ libgb_remove abi64 (some ctx0) (some fresh64) 18446744073709551615 1
        = .ok ⟨LIBGB_ERROR_OK, some ⟨fresh64.ptr, 18446744073709551615, 8⟩, []⟩
    ∧ libgb_read abi64 (some ctx0) (some fresh64) 0 (some [0]) 1
        = .ok ⟨⟨LIBGB_ERROR_INDEX, some fresh64, []⟩, some [0]⟩ :=
  ⟨by decide, by decide, by rfl, rfl, rfl, rfl, rfl⟩

/-! ## C5: index errors of insert -/

/-- C5, as the specification states it, fails: with `block_size = 0` an insert at an offset
beyond the size returns `LIBGB_ERROR_OK`, not `LIBGB_ERROR_INDEX`. -/
theorem insert_zero_block_beyond_size :
    fresh64.size < 1
    ∧ libgb_insert_initialized abi64 generous (some ctx0) (some fresh64) 1 0
          (some (fun _ => .ok []))
        = .ok ⟨LIBGB_ERROR_OK, some fresh64, []⟩
    ∧ libgb_insert_initialized abi64 generous (some ctx0) (some fresh64) 1 0
          (some (fun _ => .ok []))
        ≠ .ok ⟨LIBGB_ERROR_INDEX, some fresh64, []⟩ := by
  refine ⟨by decide, rfl, ?_⟩
  intro h
  have h₁ : libgb_insert_initialized abi64 generous (some ctx0) (some fresh64) 1 0
      (some (fun _ => .ok [])) = .ok ⟨LIBGB_ERROR_OK, some fresh64, []⟩ := rfl
  rw [h₁] at h
  simp at h

/-- C5, amended: for every offset beyond the size, `libgb_insert_initialized` with valid
handles and a non-null initializer leaves the buffer unchanged and calls nothing; it returns
`LIBGB_ERROR_INDEX` when `block_size` is not zero and `LIBGB_ERROR_OK` when it is zero. -/
theorem insert_offset_beyond_size (abi : Abi) (al : Allocator) (ctx : Libgb) (b : LibgbBuffer)
    (offset block_size : Nat) (init : Initializer) (h : b.size < offset) :
    libgb_insert_initialized abi al (some ctx) (some b) offset block_size (some init)
      = .ok ⟨if block_size = 0 then LIBGB_ERROR_OK else LIBGB_ERROR_INDEX, some b, []⟩ := by
  unfold libgb_insert_initialized
  by_cases hz : block_size = 0
  · simp [hz]
  · simp [hz, h]

theorem insert_offset_beyond_size_witness :
    hi64.size < 4
    ∧ libgb_insert_initialized abi64 generous (some ctx0) (some hi64) 4 2
          (some (fun _ => .ok [88, 0]))
        = .ok ⟨if 2 = 0 then LIBGB_ERROR_OK else LIBGB_ERROR_INDEX, some hi64, []⟩ :=
  ⟨by decide,
    insert_offset_beyond_size abi64 generous ctx0 hi64 4 2 (fun _ => .ok [88, 0]) (by decide)⟩

/-! ## C6: dropping more than the size -/

/-- C6 at its failing input: dropping 1 byte from the fresh buffer (size 0) computes the offset
`0 - 1 = SIZE_MAX`, the test `size < offset + 1` sees the wrapped sum 0 and passes, and the call
returns `LIBGB_ERROR_OK` with the size set to `SIZE_MAX` instead of failing with
`LIBGB_ERROR_INDEX`. -/
theorem drop_more_than_size :
    fresh64.size < 1
    ∧ size_sub abi64 fresh64.size 1 = 18446744073709551615
    ∧ libgb_drop abi64 (some ctx0) (some fresh64) 1
        = .ok ⟨LIBGB_ERROR_OK, some ⟨fresh64.ptr, 18446744073709551615, 8⟩, []⟩ :=
  ⟨by decide, by rfl, rfl⟩

/-! ## C7: write then read -/

/-- C7: on a well-formed buffer, for `offset + n ≤ size` and a source block of `n` bytes,
`libgb_write` followed by `libgb_read` at the same offset and size both return
`LIBGB_ERROR_OK` and the destination's first `n` bytes are the source block. -/
theorem write_read_round_trip (abi : Abi) (ctx : Libgb) (b : LibgbBuffer) (offset n : Nat)
    (src dest : List Byte) (hv : valid abi b) (h : offset + n ≤ b.size)
    (hsrc : src.length = n) (hdest : n ≤ dest.length) :
    ∃ b₁ d, libgb_write abi (some ctx) (some b) offset (some src) n
          = .ok ⟨LIBGB_ERROR_OK, some b₁, []⟩
      ∧ libgb_read abi (some ctx) (some b₁) offset (some dest) n
          = .ok ⟨⟨LIBGB_ERROR_OK, some b₁, []⟩, some d⟩
      ∧ d.take n = src := by
  obtain ⟨blk, hp, hs, hl⟩ := hv
  by_cases hn : n = 0
  · subst hn
    have : src = [] := List.eq_nil_of_length_eq_zero hsrc
    subst this
    exact ⟨b, dest, by simp [libgb_write], by simp [libgb_read], by simp⟩
  · have hadd : size_add abi offset n = offset + n := size_add_eq abi (by omega)
    have hidx : ¬ b.size < offset + n := by omega
    have hld : load (some src) 0 n = .ok src := by
      rw [load_some _ _ _ (by omega)]; simp [← hsrc]
    have hst : store (some blk) offset src
        = .ok (some (blk.take offset ++ src ++ blk.drop (offset + src.length))) :=
      store_some _ _ _ (by omega)
    have hld₂ : load (some (blk.take offset ++ src ++ blk.drop (offset + src.length))) offset n
        = .ok src := by
      rw [load_some _ _ _ (by simp [List.length_take, List.length_drop]; omega)]
      have hA : (blk.take offset).length = offset := by simp [List.length_take]; omega
      rw [List.append_assoc, List.drop_left' hA, List.take_left' hsrc]
    have hst₂ : store (some dest) 0 src
        = .ok (some (dest.take 0 ++ src ++ dest.drop (0 + src.length))) :=
      store_some _ _ _ (by omega)
    refine ⟨⟨some (blk.take offset ++ src ++ blk.drop (offset + src.length)), b.size,
      b.capacity⟩, dest.take 0 ++ src ++ dest.drop (0 + src.length), ?_, ?_, ?_⟩
    · simp [libgb_write, hn, hadd, hidx, hld, hp, hst]
    · simp only [libgb_read, hn, hadd, hidx, hld₂, hst₂]
      simp
    · simp [List.take_left' hsrc]

theorem write_read_round_trip_witness :
    valid abi64 full64 ∧ 2 + 3 ≤ full64.size ∧ [7, 7, 7].length = 3 ∧ 3 ≤ [0, 0, 0, 0].length ∧
    ∃ b₁ d, libgb_write abi64 (some ctx0) (some full64) 2 (some [7, 7, 7]) 3
          = .ok ⟨LIBGB_ERROR_OK, some b₁, []⟩
      ∧ libgb_read abi64 (some ctx0) (some b₁) 2 (some [0, 0, 0, 0]) 3
          = .ok ⟨⟨LIBGB_ERROR_OK, some b₁, []⟩, some d⟩
      ∧ d.take 3 = [7, 7, 7] :=
  ⟨valid_full64, by decide, by decide, by decide,
    write_read_round_trip abi64 ctx0 full64 2 3 [7, 7, 7] [0, 0, 0, 0] valid_full64 (by decide)
      (by decide) (by decide)⟩

/-! ## C8: release -/

/-- C8, as the specification states it, fails: when the allocator refuses the compacting
reallocation, the block handed back for a buffer of size 3 still has its 8 allocated bytes. -/
theorem destroy_into_refused_not_exact :
    0 < hi64.size
    ∧ libgb_destroy_into stingy (some ctx0) (some (some hi64)) true true
        = .ok ⟨LIBGB_ERROR_OK, some none, some (some [104, 105, 0, 0, 0, 0, 0, 0]), some 3,
            [Event.realloc 3 false]⟩
    ∧ [104, 105, 0, 0, 0, 0, 0, 0].length ≠ hi64.size :=
  ⟨by decide, rfl, by decide⟩

/-- C8, amended: for every non-null buffer whose block holds its `size` bytes,
`libgb_destroy_into` returns `LIBGB_ERROR_OK`, sets the handle to null, reports
`out_size = size` and a block whose first `size` bytes are the content; when `size > 0` and the
compacting reallocation is granted the block's allocated length is exactly `size`, and when it
is refused the old block is handed back as it was. -/
theorem destroy_into_release (al : Allocator) (ctx : Libgb) (b : LibgbBuffer)
    (h : b.size ≤ block_length b) :
    ∃ p tr, libgb_destroy_into al (some ctx) (some (some b)) true true
        = .ok ⟨LIBGB_ERROR_OK, some none, some p, some b.size, tr⟩
      ∧ (p.getD []).take b.size = content b
      ∧ (0 < b.size → al.refuses = false → (p.getD []).length = b.size)
      ∧ (0 < b.size → al.refuses = true → p = b.ptr) := by
  unfold libgb_destroy_into
  refine ⟨_, _, rfl, ?_, ?_, ?_⟩
  · by_cases hz : b.size = 0
    · simp [hz, content]
    · cases href : al.refuses with
      | true => simp [hz, realloc, href, content]
      | false =>
        simp only [hz, realloc, href, false_or, content, if_false, Bool.false_eq_true, ne_eq,
          not_false_eq_true, reduceCtorEq, if_true, Option.getD_some]
        exact resize_take _ _ _ _ h (le_refl _)
  · intro hpos href
    have hz : b.size ≠ 0 := by omega
    simp [hz, realloc, href, resize_length]
  · intro hpos href
    have hz : b.size ≠ 0 := by omega
    simp [hz, realloc, href]

theorem destroy_into_release_witness :
    restored64.size ≤ block_length restored64
    ∧ ∃ p tr, libgb_destroy_into generous (some ctx0) (some (some restored64)) true true
        = .ok ⟨LIBGB_ERROR_OK, some none, some p, some restored64.size, tr⟩
      ∧ (p.getD []).take restored64.size = content restored64
      ∧ (0 < restored64.size → generous.refuses = false → (p.getD []).length = restored64.size)
      ∧ (0 < restored64.size → generous.refuses = true → p = restored64.ptr) :=
  ⟨by decide, destroy_into_release generous ctx0 restored64 (by decide)⟩

/-! ## C9: out of memory -/

/-- C9: when a valid insert (`offset ≤ size`, `block_size > 0`) needs a reallocation (the
required capacity exceeds the capacity field and the doubling loop stops at `k`) and the
allocator refuses it, `libgb_insert_initialized` returns `LIBGB_ERROR_OUT_OF_MEMORY`, the
buffer is exactly as before, and the only event of the call is the refused reallocation: the
initializer is not called. -/
theorem insert_out_of_memory_atomic (abi : Abi) (al : Allocator) (ctx : Libgb) (b : LibgbBuffer)
    (offset n k : Nat) (init : Initializer) (hoff : offset ≤ b.size) (hn : 0 < n)
    (hneed : b.capacity < size_add abi offset n)
    (hloop : doubling abi.modulus (abi.w + 1) b.capacity (size_add abi offset n) = some k)
    (href : al.refuses = true) :
    libgb_insert_initialized abi al (some ctx) (some b) offset n (some init)
      = .ok ⟨LIBGB_ERROR_OUT_OF_MEMORY, some b, [Event.realloc k false]⟩ := by
  have hn0 : n ≠ 0 := by omega
  have hidx : ¬ b.size < offset := by omega
  have hreq : ¬ size_add abi offset n ≤ b.capacity := by omega
  have hge := doubling_ge _ _ _ _ _ hloop
  have hk : k ≠ 0 := by omega
  simp [libgb_insert_initialized, hn0, hidx, reserve, hreq, hloop, realloc, hk, href,
    libgb_handle_internal_error]

theorem insert_out_of_memory_atomic_witness :
    0 ≤ full64.size ∧ 0 < 9 ∧ full64.capacity < size_add abi64 0 9
    ∧ doubling abi64.modulus (abi64.w + 1) full64.capacity (size_add abi64 0 9) = some 16
    ∧ stingy.refuses = true
    ∧ libgb_insert_initialized abi64 stingy (some ctx0) (some full64) 0 9
          (some (fun _ => .ok [1, 2, 3, 4, 5, 6, 7, 8, 9]))
        = .ok ⟨LIBGB_ERROR_OUT_OF_MEMORY, some full64, [Event.realloc 16 false]⟩ :=
  ⟨by decide, by decide, by decide, by rfl, rfl,
    insert_out_of_memory_atomic abi64 stingy ctx0 full64 0 9 16
      (fun _ => .ok [1, 2, 3, 4, 5, 6, 7, 8, 9]) (by decide) (by decide) (by decide) (by rfl)
      rfl⟩

/-! ## C10: insert then remove -/

theorem valid_seventeen64 : valid abi64 seventeen64 := ⟨_, rfl, by decide, by decide⟩

theorem reachable_seventeen64 : Reachable abi64 seventeen64 :=
  Reachable.append_buffer generous ctx0 fresh64
    (some [1, 2, 3, 4, 5, 6, 7, 8, 9, 10, 11, 12, 13, 14, 15, 16, 17]) 17
    ⟨LIBGB_ERROR_OK, some seventeen64, [Event.realloc 32 true, Event.initializer 0 17]⟩
    seventeen64 reachable_fresh64 (by decide) rfl rfl

/-- C10 at its failing input: the buffer holding the seventeen bytes 1..17 (block of 32 bytes)
is reachable and well formed; inserting one byte at offset 9 reserves `9 + 1 = 10` bytes, which
exceeds the capacity field 8, so `reserve` reallocates the block down to 16 bytes and returns
`LIBGB_ERROR_OK`: the seventeenth content byte is no longer in the block, and the shift of the
eight bytes at offsets 9..17 to offsets 10..18 leaves the 16-byte block.  The insert does not
yield a buffer of size 18 from which `libgb_remove` could restore the content. -/
theorem insert_truncates_content :
    Reachable abi64 seventeen64 ∧ valid abi64 seventeen64
    ∧ 9 ≤ seventeen64.size ∧ seventeen64.size + 1 < abi64.modulus
    ∧ content seventeen64 = [1, 2, 3, 4, 5, 6, 7, 8, 9, 10, 11, 12, 13, 14, 15, 16, 17]
    ∧ reserve abi64 generous (some ctx0) (some seventeen64) (size_add abi64 9 1)
        = .ok ⟨LIBGB_ERROR_OK, some shrunk64, [Event.realloc 16 true]⟩
    ∧ block_length shrunk64 = 16 ∧ shrunk64.size = 17
    ∧ content shrunk64 = [1, 2, 3, 4, 5, 6, 7, 8, 9, 10, 11, 12, 13, 14, 15, 16]
    ∧ content shrunk64 ≠ content seventeen64
    ∧ memmove shrunk64.ptr (9 + 1) 9 (size_sub abi64 shrunk64.size 9)
        = .error Fault.out_of_bounds
    ∧ libgb_insert_initialized abi64 generous (some ctx0) (some seventeen64) 9 1
          (some (fun _ => .ok [88]))
        = .error Fault.out_of_bounds :=
  ⟨reachable_seventeen64, valid_seventeen64, by decide, by decide, rfl, rfl, rfl, rfl, rfl,
    by decide, rfl, rfl⟩

/-- Where the embedded `libgb_insert_initialized` returns `LIBGB_ERROR_OK` on a well-formed
buffer (which needs a block of `size + n` bytes after `reserve`), `libgb_remove` of the same
`n` bytes at the same offset returns `LIBGB_ERROR_OK` and restores the size and the content. -/
theorem inverse_when_block_suffices (abi : Abi) (al : Allocator) (ctx : Libgb) (b : LibgbBuffer)
    (offset n : Nat) (init : Initializer) (data : List Byte) (r : Ret) (hv : valid abi b)
    (hoff : offset ≤ b.size) (hn : 0 < n) (hinit : init n = .ok data) (hlen : data.length = n)
    (hins : libgb_insert_initialized abi al (some ctx) (some b) offset n (some init) = .ok r)
    (herr : r.err = LIBGB_ERROR_OK) :
    ∃ b₁ b₂, r.buffer = some b₁
      ∧ b₁.size = b.size + n
      ∧ content b₁ = (content b).take offset ++ data ++ (content b).drop offset
      ∧ libgb_remove abi (some ctx) (some b₁) offset n = .ok ⟨LIBGB_ERROR_OK, some b₂, []⟩
      ∧ b₂.size = b.size ∧ content b₂ = content b := by
  obtain ⟨b₁, hbuf, hv₁, hsz, hc, _⟩ :=
    insert_ok abi al ctx b offset n init data r hv hoff hn hinit hlen hins herr
  obtain ⟨b₂, hrem, hsz₂, hc₂, _⟩ :=
    remove_ok abi ctx b₁ offset n hv₁ hn (by omega)
  refine ⟨b₁, b₂, hbuf, hsz, hc, hrem, by omega, ?_⟩
  rw [hc₂, hc]
  have hclen : (content b).length = b.size := by
    obtain ⟨blk, hp, hs, _⟩ := hv
    simp [content, hp, List.length_take]; omega
  have hA : ((content b).take offset).length = offset := by
    simp [List.length_take]; omega
  have hB : ((content b).take offset ++ data).length = offset + n := by
    simp [List.length_take, hlen]; omega
  rw [List.append_assoc, List.take_left' hA, ← List.append_assoc, List.drop_left' hB]
  exact List.take_append_drop _ _

/-- The scenario of the specification: create, append the string "hi" (size 3), insert the two
bytes 88, 0 at offset 0 (size 5), remove two bytes at offset 0 (size 3, content "hi" and its
terminator again), release (length 3, the same three bytes). -/
theorem hi_scenario :
    libgb_create abi64 generous generous (some ctx0) (some none)
        = (LIBGB_ERROR_OK, some (some fresh64))
    ∧ libgb_append_string abi64 generous (some ctx0) (some fresh64) (some [104, 105, 0])
        = .ok ⟨LIBGB_ERROR_OK, some hi64, [Event.initializer 0 3]⟩
    ∧ hi64.size = 3
    ∧ libgb_insert_initialized abi64 generous (some ctx0) (some hi64) 0 2
          (some (fun _ => .ok [88, 0]))
        = .ok ⟨LIBGB_ERROR_OK, some inserted64, [Event.initializer 0 2]⟩
    ∧ inserted64.size = 5 ∧ content inserted64 = [88, 0] ++ content hi64
    ∧ libgb_remove abi64 (some ctx0) (some inserted64) 0 2
        = .ok ⟨LIBGB_ERROR_OK, some restored64, []⟩
    ∧ restored64.size = 3 ∧ content restored64 = [104, 105, 0]
    ∧ libgb_destroy_into generous (some ctx0) (some (some restored64)) true true
        = .ok ⟨LIBGB_ERROR_OK, some none, some (some [104, 105, 0]), some 3,
            [Event.realloc 3 true]⟩
    ∧ ∃ b₁ b₂, some inserted64 = some b₁
      ∧ b₁.size = hi64.size + 2
      ∧ content b₁ = (content hi64).take 0 ++ [88, 0] ++ (content hi64).drop 0
      ∧ libgb_remove abi64 (some ctx0) (some b₁) 0 2 = .ok ⟨LIBGB_ERROR_OK, some b₂, []⟩
      ∧ b₂.size = hi64.size ∧ content b₂ = content hi64 :=
  ⟨rfl, rfl, rfl, rfl, rfl, rfl, rfl, rfl, rfl, rfl,
    inverse_when_block_suffices abi64 generous ctx0 hi64 0 2 (fun _ => .ok [88, 0]) [88, 0]
      ⟨LIBGB_ERROR_OK, some inserted64, [Event.initializer 0 2]⟩
      valid_hi64 (by decide) (by decide) rfl rfl rfl rfl⟩

/-! ## What every call leaves alone -/

theorem reserve_frame (abi : Abi) (al : Allocator) (libgb : Option Libgb) (b : LibgbBuffer)
    (req : Nat) (r : Ret) (h : reserve abi al libgb (some b) req = .ok r) :
    ∃ p, r.buffer = some ⟨p, b.size, b.capacity⟩ := by
  unfold reserve at h
  cases libgb with
  | none =>
    simp only [Except.ok.injEq] at h
    subst h
    exact ⟨b.ptr, rfl⟩
  | some ctx =>
    simp only at h
    by_cases hreq : req ≤ b.capacity
    · simp only [hreq, if_true, Except.ok.injEq] at h
      subst h
      exact ⟨b.ptr, rfl⟩
    · simp only [hreq, if_false] at h
      cases hd : doubling abi.modulus (abi.w + 1) b.capacity req with
      | none => simp [hd] at h
      | some k =>
        simp only [hd] at h
        cases hr : realloc al b.ptr k with
        | none =>
          simp only [hr] at h
          by_cases hk : k = 0
          · simp only [hk, ne_eq, not_true_eq_false, if_false, Except.ok.injEq] at h
            subst h
            exact ⟨none, rfl⟩
          · simp only [ne_eq, hk, not_false_eq_true, if_true, Except.ok.injEq] at h
            subst h
            exact ⟨b.ptr, rfl⟩
        | some q =>
          simp only [hr, Except.ok.injEq] at h
          subst h
          exact ⟨some q, rfl⟩

theorem insert_frame (abi : Abi) (al : Allocator) (libgb : Option Libgb) (b : LibgbBuffer)
    (offset n : Nat) (init : Option Initializer) (r : Ret)
    (h : libgb_insert_initialized abi al libgb (some b) offset n init = .ok r) :
    ∃ b₁, r.buffer = some b₁ ∧ b₁.capacity = b.capacity := by
  unfold libgb_insert_initialized at h
  cases libgb with
  | none => simp only [Except.ok.injEq] at h; subst h; exact ⟨b, rfl, rfl⟩
  | some ctx =>
    cases init with
    | none => simp only [Except.ok.injEq] at h; subst h; exact ⟨b, rfl, rfl⟩
    | some f =>
      simp only at h
      by_cases hn : n = 0
      · simp only [hn, if_true, Except.ok.injEq] at h; subst h; exact ⟨b, rfl, rfl⟩
      · simp only [hn, if_false] at h
        by_cases hidx : b.size < offset
        · simp only [hidx, if_true, Except.ok.injEq] at h; subst h; exact ⟨b, rfl, rfl⟩
        · simp only [hidx, if_false] at h
          cases hres : reserve abi al (some ctx) (some b) (size_add abi offset n) with
          | error e => simp [hres] at h
          | ok r₀ =>
            obtain ⟨p, hp⟩ := reserve_frame _ _ _ _ _ _ hres
            simp only [hres, hp] at h
            cases he : r₀.err with
            | LIBGB_ERROR_BAD_ARGUMENT => simp [he, libgb_handle_internal_error] at h
            | LIBGB_ERROR_OUT_OF_MEMORY =>
              simp only [he, libgb_handle_internal_error, Except.ok.injEq] at h
              subst h; exact ⟨_, rfl, rfl⟩
            | LIBGB_ERROR_INDEX =>
              simp only [he, libgb_handle_internal_error, Except.ok.injEq] at h
              subst h; exact ⟨_, rfl, rfl⟩
            | LIBGB_ERROR_OK =>
              simp only [he, libgb_handle_internal_error] at h
              cases hm : memmove p (offset + n) offset (size_sub abi b.size offset) with
              | error e => simp [hm] at h
              | ok p₁ =>
                simp only [hm] at h
                cases hi : f n with
                | error e => simp [hi] at h
                | ok data =>
                  simp only [hi] at h
                  cases hs : store p₁ offset data with
                  | error e => simp [hs] at h
                  | ok p₂ =>
                    simp only [hs, Except.ok.injEq] at h
                    subst h; exact ⟨_, rfl, rfl⟩

theorem append_buffer_frame (abi : Abi) (al : Allocator) (libgb : Option Libgb) (b : LibgbBuffer)
    (bytes : Option (List Byte)) (n : Nat) (r : Ret)
    (h : libgb_append_buffer abi al libgb (some b) bytes n = .ok r) :
    ∃ b₁, r.buffer = some b₁ ∧ b₁.capacity = b.capacity := by
  unfold libgb_append_buffer at h
  exact insert_frame _ _ _ _ _ _ _ _ h

theorem append_string_frame (abi : Abi) (al : Allocator) (libgb : Option Libgb) (b : LibgbBuffer)
    (string : Option (List Byte)) (r : Ret)
    (h : libgb_append_string abi al libgb (some b) string = .ok r) :
    ∃ b₁, r.buffer = some b₁ ∧ b₁.capacity = b.capacity := by
  unfold libgb_append_string at h
  cases string with
  | none => simp only [Except.ok.injEq] at h; subst h; exact ⟨b, rfl, rfl⟩
  | some s =>
    simp only at h
    cases hl : strlen s with
    | error e => simp [hl] at h
    | ok n =>
      simp only [hl] at h
      exact append_buffer_frame _ _ _ _ _ _ _ h

theorem append_char_frame (abi : Abi) (al : Allocator) (libgb : Option Libgb) (b : LibgbBuffer)
    (c : Byte) (r : Ret) (h : libgb_append_char abi al libgb (some b) c = .ok r) :
    ∃ b₁, r.buffer = some b₁ ∧ b₁.capacity = b.capacity := by
  unfold libgb_append_char at h
  exact append_buffer_frame _ _ _ _ _ _ _ h

theorem remove_frame (abi : Abi) (libgb : Option Libgb) (b : LibgbBuffer) (offset n : Nat)
    (r : Ret) (h : libgb_remove abi libgb (some b) offset n = .ok r) :
    ∃ b₁, r.buffer = some b₁ ∧ b₁.capacity = b.capacity ∧ r.trace = [] := by
  unfold libgb_remove at h
  cases libgb with
  | none => simp only [Except.ok.injEq] at h; subst h; exact ⟨b, rfl, rfl, rfl⟩
  | some ctx =>
    simp only at h
    by_cases hn : n = 0
    · simp only [hn, if_true, Except.ok.injEq] at h; subst h; exact ⟨b, rfl, rfl, rfl⟩
    · simp only [hn, if_false] at h
      by_cases hidx : b.size < size_add abi offset n
      · simp only [hidx, if_true, Except.ok.injEq] at h; subst h; exact ⟨b, rfl, rfl, rfl⟩
      · simp only [hidx, if_false] at h
        cases hm : memmove b.ptr offset (offset + n)
            (size_sub abi (size_sub abi b.size offset) n) with
        | error e => simp [hm] at h
        | ok p =>
          simp only [hm, Except.ok.injEq] at h
          subst h; exact ⟨_, rfl, rfl, rfl⟩

theorem drop_frame (abi : Abi) (libgb : Option Libgb) (b : LibgbBuffer) (n : Nat)
    (r : Ret) (h : libgb_drop abi libgb (some b) n = .ok r) :
    ∃ b₁, r.buffer = some b₁ ∧ b₁.capacity = b.capacity ∧ r.trace = [] := by
  unfold libgb_drop at h
  exact remove_frame _ _ _ _ _ _ h

theorem read_frame (abi : Abi) (libgb : Option Libgb) (b : LibgbBuffer) (offset : Nat)
    (bytes : Option (List Byte)) (n : Nat) (r : ReadRet)
    (h : libgb_read abi libgb (some b) offset bytes n = .ok r) :
    r.ret.buffer = some b ∧ r.ret.trace = [] := by
  unfold libgb_read at h
  cases libgb with
  | none => simp only [Except.ok.injEq] at h; subst h; exact ⟨rfl, rfl⟩
  | some ctx =>
    simp only at h
    by_cases hb : n ≠ 0 ∧ bytes = none
    · rw [if_pos hb] at h
      simp only [Except.ok.injEq] at h; subst h; exact ⟨rfl, rfl⟩
    · rw [if_neg hb] at h
      by_cases hn : n = 0
      · simp only [hn, if_true, Except.ok.injEq] at h; subst h; exact ⟨rfl, rfl⟩
      · simp only [hn, if_false] at h
        by_cases hidx : b.size < size_add abi offset n
        · simp only [hidx, if_true, Except.ok.injEq] at h; subst h; exact ⟨rfl, rfl⟩
        · simp only [hidx, if_false] at h
          cases hl : load b.ptr offset n with
          | error e => simp [hl] at h
          | ok data =>
            simp only [hl] at h
            cases hs : store bytes 0 data with
            | error e => simp [hs] at h
            | ok d =>
              simp only [hs, Except.ok.injEq] at h
              subst h; exact ⟨rfl, rfl⟩

theorem write_frame (abi : Abi) (libgb : Option Libgb) (b : LibgbBuffer) (offset : Nat)
    (bytes : Option (List Byte)) (n : Nat) (r : Ret)
    (h : libgb_write abi libgb (some b) offset bytes n = .ok r) :
    ∃ b₁, r.buffer = some b₁ ∧ b₁.size = b.size ∧ b₁.capacity = b.capacity ∧ r.trace = []
      ∧ (r.err ≠ LIBGB_ERROR_OK → b₁ = b) := by
  unfold libgb_write at h
  cases libgb with
  | none => simp only [Except.ok.injEq] at h; subst h; exact ⟨b, rfl, rfl, rfl, rfl, fun _ => rfl⟩
  | some ctx =>
    simp only at h
    by_cases hb : n ≠ 0 ∧ bytes = none
    · rw [if_pos hb] at h
      simp only [Except.ok.injEq] at h
      subst h; exact ⟨b, rfl, rfl, rfl, rfl, fun _ => rfl⟩
    · rw [if_neg hb] at h
      by_cases hn : n = 0
      · simp only [hn, if_true, Except.ok.injEq] at h
        subst h; exact ⟨b, rfl, rfl, rfl, rfl, fun _ => rfl⟩
      · simp only [hn, if_false] at h
        by_cases hidx : b.size < size_add abi offset n
        · simp only [hidx, if_true, Except.ok.injEq] at h
          subst h; exact ⟨b, rfl, rfl, rfl, rfl, fun _ => rfl⟩
        · simp only [hidx, if_false] at h
          cases hl : load bytes 0 n with
          | error e => simp [hl] at h
          | ok data =>
            simp only [hl] at h
            cases hs : store b.ptr offset data with
            | error e => simp [hs] at h
            | ok p =>
              simp only [hs, Except.ok.injEq] at h
              subst h; exact ⟨_, rfl, rfl, rfl, rfl, fun hne => absurd rfl hne⟩

/-- The capacity field of a reachable buffer is the initial capacity: no operation writes it. -/
theorem capacity_reachable (abi : Abi) (b : LibgbBuffer) (h : Reachable abi b) :
    b.capacity = INITIAL_CAPACITY abi := by
  induction h with
  | create al₁ al₂ ctx h b hc =>
    unfold libgb_create at hc
    simp only at hc
    cases hm : malloc al₁ (INITIAL_CAPACITY abi) with
    | none => simp [hm] at hc
    | some ptr =>
      simp only [hm] at hc
      by_cases href : al₂.refuses = true
      · simp [href] at hc
      · simp only [href, Bool.false_eq_true, if_false, Prod.mk.injEq, Option.some.injEq,
          true_and] at hc
        rw [← hc]
  | insert_initialized al ctx b offset n init r b₁ _ _ _ hcall hbuf ih =>
    obtain ⟨b₂, h₂, hcap⟩ := insert_frame _ _ _ _ _ _ _ _ hcall
    rw [hbuf] at h₂; cases h₂; rw [hcap, ih]
  | append_buffer al ctx b bytes n r b₁ _ _ hcall hbuf ih =>
    obtain ⟨b₂, h₂, hcap⟩ := append_buffer_frame _ _ _ _ _ _ _ hcall
    rw [hbuf] at h₂; cases h₂; rw [hcap, ih]
  | append_string al ctx b s r b₁ _ hcall hbuf ih =>
    obtain ⟨b₂, h₂, hcap⟩ := append_string_frame _ _ _ _ _ _ hcall
    rw [hbuf] at h₂; cases h₂; rw [hcap, ih]
  | append_char al ctx b c r b₁ _ hcall hbuf ih =>
    obtain ⟨b₂, h₂, hcap⟩ := append_char_frame _ _ _ _ _ _ hcall
    rw [hbuf] at h₂; cases h₂; rw [hcap, ih]
  | remove ctx b offset n r b₁ _ _ _ hcall hbuf ih =>
    obtain ⟨b₂, h₂, hcap, _⟩ := remove_frame _ _ _ _ _ _ hcall
    rw [hbuf] at h₂; cases h₂; rw [hcap, ih]
  | drop ctx b n r b₁ _ _ hcall hbuf ih =>
    obtain ⟨b₂, h₂, hcap, _⟩ := drop_frame _ _ _ _ _ hcall
    rw [hbuf] at h₂; cases h₂; rw [hcap, ih]
  | read ctx b offset bytes n r b₁ _ _ _ hcall hbuf ih =>
    obtain ⟨h₂, _⟩ := read_frame _ _ _ _ _ _ _ hcall
    rw [hbuf] at h₂; cases h₂; exact ih
  | write ctx b offset bytes n r b₁ _ _ _ hcall hbuf ih =>
    obtain ⟨b₂, h₂, _, hcap, _⟩ := write_frame _ _ _ _ _ _ _ hcall
    rw [hbuf] at h₂; cases h₂; rw [hcap, ih]

/-! ## C11: the capacity field -/

/-- C11: when both allocations are granted, `libgb_create` yields a buffer of size 0 whose
capacity is `sizeof(void *)`, and in every reachable buffer state the capacity is that initial
capacity times `2 ^ k` for some natural number `k`. -/
theorem capacity_doubling_invariant (abi : Abi) :
    (∀ (al₁ al₂ : Allocator) (ctx : Libgb) (h : Option LibgbBuffer),
      al₁.refuses = false → al₂.refuses = false → 0 < abi.ptr_size →
      ∃ blk, libgb_create abi al₁ al₂ (some ctx) (some h)
          = (LIBGB_ERROR_OK, some (some ⟨some blk, 0, INITIAL_CAPACITY abi⟩))
        ∧ blk.length = INITIAL_CAPACITY abi ∧ INITIAL_CAPACITY abi = abi.ptr_size)
    ∧ ∀ b, Reachable abi b → ∃ k, b.capacity = INITIAL_CAPACITY abi * 2 ^ k := by
  constructor
  · intro al₁ al₂ ctx h h₁ h₂ hpos
    have hne : abi.ptr_size ≠ 0 := by omega
    refine ⟨resize al₁.junk [] abi.ptr_size, ?_, resize_length _ _ _, rfl⟩
    simp [libgb_create, malloc, realloc, INITIAL_CAPACITY, hne, h₁, h₂]
  · intro b hb
    exact ⟨0, by rw [capacity_reachable abi b hb]; simp⟩

theorem capacity_doubling_invariant_witness :
    (∃ blk, libgb_create abi64 generous generous (some ctx0) (some none)
          = (LIBGB_ERROR_OK, some (some ⟨some blk, 0, INITIAL_CAPACITY abi64⟩))
        ∧ blk.length = INITIAL_CAPACITY abi64 ∧ INITIAL_CAPACITY abi64 = abi64.ptr_size)
    ∧ ∃ k, nine64.capacity = INITIAL_CAPACITY abi64 * 2 ^ k :=
  ⟨(capacity_doubling_invariant abi64).1 generous generous ctx0 none rfl rfl (by decide),
    (capacity_doubling_invariant abi64).2 nine64 reachable_nine64⟩

/-! ## C12: reallocations of a run of appends -/

/-- C12 at its failing input: appending the sixteen bytes 1..16 one at a time to the fresh
buffer calls `realloc` eight times (once for each byte after the eighth), although
`8 * 2 ^ 1 ≥ 16` allows one reallocation; and the append of a tenth byte to the buffer of nine
bytes calls `realloc` although its block already has 16 bytes. -/
theorem appends_reallocate_each_time :
    (∃ b tr, append_chars abi64 generous ctx0 fresh64
          [1, 2, 3, 4, 5, 6, 7, 8, 9, 10, 11, 12, 13, 14, 15, 16] = .ok (b, tr)
      ∧ b.size = 16 ∧ realloc_calls tr = 8)
    ∧ INITIAL_CAPACITY abi64 * 2 ^ 1 ≥ 16
    ∧ block_length nine64 = 16
    ∧ libgb_append_char abi64 generous (some ctx0) (some nine64) 10
        = .ok ⟨LIBGB_ERROR_OK,
            some ⟨some [1, 2, 3, 4, 5, 6, 7, 8, 9, 10, 0, 0, 0, 0, 0, 0], 10, 8⟩,
            [Event.realloc 16 true, Event.initializer 9 1]⟩ :=
  ⟨⟨_, _, rfl, rfl, rfl⟩, by decide, rfl, rfl⟩

/-! ## C13: null arguments -/

/-- C13 at its failing inputs: with a null buffer handle `libgb_append_buffer`,
`libgb_append_char` and `libgb_append_string` read `buffer->size` before any test, and with a
null `out` or `out_size` `libgb_destroy_into` stores through the null pointer; none of these
calls returns `LIBGB_ERROR_BAD_ARGUMENT`. -/
theorem null_arguments_dereferenced :
    libgb_append_buffer abi64 generous (some ctx0) none (some [1]) 1
        = .error Fault.null_dereference
    ∧ libgb_append_char abi64 generous (some ctx0) none 1 = .error Fault.null_dereference
    ∧ libgb_append_string abi64 generous (some ctx0) none (some [104, 105, 0])
        = .error Fault.null_dereference
    ∧ libgb_destroy_into generous (some ctx0) (some (some hi64)) false true
        = .error Fault.null_dereference
    ∧ libgb_destroy_into generous (some ctx0) (some (some hi64)) true false
        = .error Fault.null_dereference :=
  ⟨rfl, rfl, rfl, rfl, rfl⟩

/-! ## C14: a null external region -/

/-- C14: for every buffer, offset and non-zero size, `libgb_read` and `libgb_write` with a null
external region return `LIBGB_ERROR_BAD_ARGUMENT`, whatever the offset, and leave the buffer
as it was. -/
theorem null_region_is_bad_argument (abi : Abi) (libgb : Option Libgb)
    (buffer : Option LibgbBuffer) (offset n : Nat) (hn : n ≠ 0) :
    libgb_read abi libgb buffer offset none n
        = .ok ⟨⟨LIBGB_ERROR_BAD_ARGUMENT, buffer, []⟩, none⟩
    ∧ libgb_write abi libgb buffer offset none n
        = .ok ⟨LIBGB_ERROR_BAD_ARGUMENT, buffer, []⟩ := by
  unfold libgb_read libgb_write
  cases libgb <;> cases buffer <;> simp [hn]

theorem null_region_is_bad_argument_witness :
    1 ≠ 0
    ∧ libgb_read abi64 (some ctx0) (some fresh64) 5 none 1
        = .ok ⟨⟨LIBGB_ERROR_BAD_ARGUMENT, some fresh64, []⟩, none⟩
    ∧ libgb_write abi64 (some ctx0) (some fresh64) 5 none 1
        = .ok ⟨LIBGB_ERROR_BAD_ARGUMENT, some fresh64, []⟩ :=
  ⟨by decide, null_region_is_bad_argument abi64 (some ctx0) (some fresh64) 5 1 (by decide)⟩

/-! ## C15: the frame of read and write -/

theorem store_frame (p p₂ : Option Block) (dst : Nat) (data : List Byte)
    (h : store p dst data = .ok p₂) :
    (p₂.getD []).length = (p.getD []).length
      ∧ ∀ i, (i < dst ∨ dst + data.length ≤ i) → (p₂.getD [])[i]? = (p.getD [])[i]? := by
  unfold store at h
  by_cases hz : data.length = 0
  · simp only [hz, if_true, Except.ok.injEq] at h
    subst h
    exact ⟨rfl, fun _ _ => rfl⟩
  · simp only [hz, if_false] at h
    cases p with
    | none => simp at h
    | some blk =>
      simp only at h
      by_cases hb : dst + data.length ≤ blk.length
      · simp only [hb, if_true, Except.ok.injEq] at h
        subst h
        simp only [Option.getD_some]
        have hA : (blk.take dst).length = dst := by simp [List.length_take]; omega
        constructor
        · simp [List.length_take, List.length_drop]; omega
        · intro i hi
          rcases hi with hi | hi
          · rw [List.append_assoc, List.getElem?_append_left (by omega),
              List.getElem?_take_of_lt hi]
          · rw [List.getElem?_append_right (by simp [List.length_take]; omega),
              List.getElem?_drop]
            congr 1
            simp [List.length_take]; omega
      · simp [hb] at h

theorem load_length (p : Option Block) (src n : Nat) (data : List Byte)
    (h : load p src n = .ok data) : data.length = n := by
  unfold load at h
  by_cases hz : n = 0
  · simp only [hz, if_true, Except.ok.injEq] at h
    subst h; simp [hz]
  · simp only [hz, if_false] at h
    cases p with
    | none => simp at h
    | some blk =>
      simp only at h
      by_cases hb : src + n ≤ blk.length
      · simp only [hb, if_true, Except.ok.injEq] at h
        subst h
        simp [List.length_take, List.length_drop]; omega
      · simp [hb] at h

theorem write_content_frame (abi : Abi) (libgb : Option Libgb) (b : LibgbBuffer) (offset n : Nat)
    (bytes : Option (List Byte)) (r : Ret)
    (h : libgb_write abi libgb (some b) offset bytes n = .ok r) :
    ∃ b₁, r.buffer = some b₁ ∧ block_length b₁ = block_length b
      ∧ ∀ i, i < b.size → (i < offset ∨ offset + n ≤ i) →
          (content b₁)[i]? = (content b)[i]? := by
  unfold libgb_write at h
  cases libgb with
  | none =>
    simp only [Except.ok.injEq] at h; subst h; exact ⟨b, rfl, rfl, fun _ _ _ => rfl⟩
  | some ctx =>
    simp only at h
    by_cases hb : n ≠ 0 ∧ bytes = none
    · rw [if_pos hb] at h
      simp only [Except.ok.injEq] at h
      subst h; exact ⟨b, rfl, rfl, fun _ _ _ => rfl⟩
    · rw [if_neg hb] at h
      by_cases hn : n = 0
      · simp only [hn, if_true, Except.ok.injEq] at h
        subst h; exact ⟨b, rfl, rfl, fun _ _ _ => rfl⟩
      · simp only [hn, if_false] at h
        by_cases hidx : b.size < size_add abi offset n
        · simp only [hidx, if_true, Except.ok.injEq] at h
          subst h; exact ⟨b, rfl, rfl, fun _ _ _ => rfl⟩
        · simp only [hidx, if_false] at h
          cases hl : load bytes 0 n with
          | error e => simp [hl] at h
          | ok data =>
            simp only [hl] at h
            cases hs : store b.ptr offset data with
            | error e => simp [hs] at h
            | ok p =>
              simp only [hs, Except.ok.injEq] at h
              subst h
              obtain ⟨hlen, hget⟩ := store_frame _ _ _ _ hs
              have hd := load_length _ _ _ _ hl
              refine ⟨_, rfl, hlen, ?_⟩
              intro i hi hout
              simp only [content]
              rw [List.getElem?_take_of_lt hi, List.getElem?_take_of_lt hi]
              exact hget i (by rw [hd]; exact hout)

/-- C15: `libgb_read` and `libgb_write` never change the size or the capacity and never call
the allocator (the trace is empty and the block keeps its length); `libgb_read` leaves the
whole buffer object as it was; a `libgb_write` that returns `LIBGB_ERROR_OK` leaves every
content byte outside `[offset, offset + n)` as it was, and one that returns an error leaves
the whole buffer as it was.  On a well-formed buffer with `offset + n` below `2 ^ w` and an
external region of at least `n` bytes both calls return. -/
theorem read_write_frame (abi : Abi) (libgb : Option Libgb) (b : LibgbBuffer) (offset n : Nat)
    (bytes : Option (List Byte)) :
    (∀ r, libgb_read abi libgb (some b) offset bytes n = .ok r →
        r.ret.buffer = some b ∧ r.ret.trace = [])
    ∧ (∀ r, libgb_write abi libgb (some b) offset bytes n = .ok r →
        ∃ b₁, r.buffer = some b₁ ∧ b₁.size = b.size ∧ b₁.capacity = b.capacity
          ∧ block_length b₁ = block_length b ∧ r.trace = []
          ∧ (r.err ≠ LIBGB_ERROR_OK → b₁ = b)
          ∧ (r.err = LIBGB_ERROR_OK → ∀ i, i < b.size → (i < offset ∨ offset + n ≤ i) →
              (content b₁)[i]? = (content b)[i]?))
    ∧ (valid abi b → offset + n < abi.modulus → (∀ d, bytes = some d → n ≤ d.length) →
        (∃ r, libgb_read abi libgb (some b) offset bytes n = .ok r)
        ∧ ∃ r, libgb_write abi libgb (some b) offset bytes n = .ok r) := by
  refine ⟨fun r h => read_frame _ _ _ _ _ _ _ h, ?_, ?_⟩
  · intro r h
    obtain ⟨b₁, hb₁, hsz, hcap, htr, herr⟩ := write_frame _ _ _ _ _ _ _ h
    obtain ⟨b₂, hb₂, hlen, hget⟩ := write_content_frame _ _ _ _ _ _ _ h
    rw [hb₁] at hb₂
    cases hb₂
    exact ⟨b₁, hb₁, hsz, hcap, hlen, htr, herr, fun _ => hget⟩
  · intro hv hsum hreg
    obtain ⟨blk, hp, hs, hl⟩ := hv
    have hadd : size_add abi offset n = offset + n := size_add_eq abi hsum
    cases libgb with
    | none => exact ⟨⟨_, rfl⟩, ⟨_, rfl⟩⟩
    | some ctx =>
      unfold libgb_read libgb_write
      simp only [hadd]
      by_cases hb : n ≠ 0 ∧ bytes = none
      · rw [if_pos hb, if_pos hb]
        exact ⟨⟨_, rfl⟩, ⟨_, rfl⟩⟩
      · rw [if_neg hb, if_neg hb]
        by_cases hn : n = 0
        · simp only [hn, if_true]
          exact ⟨⟨_, rfl⟩, ⟨_, rfl⟩⟩
        · simp only [hn, if_false]
          by_cases hidx : b.size < offset + n
          · simp only [hidx, if_true]
            exact ⟨⟨_, rfl⟩, ⟨_, rfl⟩⟩
          · simp only [hidx, if_false]
            cases hbytes : bytes with
            | none => exact absurd ⟨hn, hbytes⟩ hb
            | some d =>
              have hd := hreg d hbytes
              rw [hp, load_some blk offset n (by omega), load_some d 0 n (by omega)]
              simp only
              rw [store_some d 0 _ (by simp [List.length_take, List.length_drop]; omega),
                store_some blk offset _ (by simp [List.length_take, List.length_drop]; omega)]
              exact ⟨⟨_, rfl⟩, ⟨_, rfl⟩⟩

theorem read_write_frame_witness :
    libgb_read abi64 (some ctx0) (some full64) 2 (some [0, 0, 0]) 3
        = .ok ⟨⟨LIBGB_ERROR_OK, some full64, []⟩, some [3, 4, 5]⟩
    ∧ libgb_write abi64 (some ctx0) (some full64) 2 (some [7, 7, 7]) 3
        = .ok ⟨LIBGB_ERROR_OK, some ⟨some [1, 2, 7, 7, 7, 6, 7, 8], 8, 8⟩, []⟩
    ∧ (some full64 = some full64 ∧ ([] : List Event) = [])
    ∧ (∃ b₁, some (⟨some [1, 2, 7, 7, 7, 6, 7, 8], 8, 8⟩ : LibgbBuffer) = some b₁
          ∧ b₁.size = full64.size ∧ b₁.capacity = full64.capacity
          ∧ block_length b₁ = block_length full64 ∧ ([] : List Event) = []
          ∧ (LIBGB_ERROR_OK ≠ LIBGB_ERROR_OK → b₁ = full64)
          ∧ (LIBGB_ERROR_OK = LIBGB_ERROR_OK → ∀ i, i < full64.size → (i < 2 ∨ 2 + 3 ≤ i) →
              (content b₁)[i]? = (content full64)[i]?))
    ∧ valid abi64 full64 ∧ 2 + 3 < abi64.modulus
    ∧ (∃ r, libgb_read abi64 (some ctx0) (some full64) 2 (some [7, 7, 7]) 3 = .ok r)
    ∧ (∃ r, libgb_write abi64 (some ctx0) (some full64) 2 (some [7, 7, 7]) 3 = .ok r) :=
  ⟨rfl, rfl,
    (read_write_frame abi64 (some ctx0) full64 2 3 (some [0, 0, 0])).1
      ⟨⟨LIBGB_ERROR_OK, some full64, []⟩, some [3, 4, 5]⟩ rfl,
    (read_write_frame abi64 (some ctx0) full64 2 3 (some [7, 7, 7])).2.1
      ⟨LIBGB_ERROR_OK, some ⟨some [1, 2, 7, 7, 7, 6, 7, 8], 8, 8⟩, []⟩ rfl,
    valid_full64, by decide,
    (read_write_frame abi64 (some ctx0) full64 2 3 (some [7, 7, 7])).2.2 valid_full64
      (by decide) (by intro d hd; cases hd; decide)⟩

/-! ## C16: appending a string -/

theorem strlen_terminated (t rest : List Byte) (ht : ∀ c ∈ t, c ≠ 0) :
    strlen (t ++ 0 :: rest) = .ok t.length := by
  induction t with
  | nil => simp [strlen]
  | cons c cs ih =>
    have hc : c ≠ 0 := ht c (List.mem_cons_self _ _)
    have hcs : ∀ x ∈ cs, x ≠ 0 := fun x hx => ht x (List.mem_cons_of_mem _ hx)
    simp [strlen, hc, ih hcs]

theorem load_terminated (t rest : List Byte) :
    load (some (t ++ 0 :: rest)) 0 (t.length + 1) = .ok (t ++ [0]) := by
  rw [load_some _ _ _ (by simp)]
  simp only [List.drop_zero, Except.ok.injEq]
  have h : t ++ 0 :: rest = (t ++ [0]) ++ rest := by simp
  rw [h, List.take_left' (by simp)]

theorem content_length (abi : Abi) (b : LibgbBuffer) (hv : valid abi b) :
    (content b).length = b.size := by
  obtain ⟨blk, hp, hs, _⟩ := hv
  simp [content, hp, List.length_take]
  omega

/-- C16: for a well-formed buffer and a string `t` without a zero byte (followed by its
terminator, `t.length + 1` below `2 ^ w`), `libgb_append_string` is
`libgb_insert_initialized` at offset `size` with block size `t.length + 1` and the copying
initializer; when it returns `LIBGB_ERROR_OK` the new size is `size + t.length + 1` and the new
content is `c ++ t ++ [0]`. -/
theorem append_string_is_insert (abi : Abi) (al : Allocator) (ctx : Libgb) (b : LibgbBuffer)
    (t rest : List Byte) (r : Ret) (hv : valid abi b) (ht : ∀ c ∈ t, c ≠ 0)
    (hL : t.length + 1 < abi.modulus)
    (h : libgb_append_string abi al (some ctx) (some b) (some (t ++ 0 :: rest)) = .ok r)
    (herr : r.err = LIBGB_ERROR_OK) :
    libgb_append_string abi al (some ctx) (some b) (some (t ++ 0 :: rest))
        = libgb_insert_initialized abi al (some ctx) (some b) b.size (t.length + 1)
            (some (initialize_buffer (some (t ++ 0 :: rest))))
    ∧ ∃ b₁, r.buffer = some b₁ ∧ b₁.size = b.size + t.length + 1
      ∧ content b₁ = content b ++ t ++ [0] := by
  have heq : libgb_append_string abi al (some ctx) (some b) (some (t ++ 0 :: rest))
      = libgb_insert_initialized abi al (some ctx) (some b) b.size (t.length + 1)
          (some (initialize_buffer (some (t ++ 0 :: rest)))) := by
    simp only [libgb_append_string, strlen_terminated t rest ht, size_add_eq abi hL,
      libgb_append_buffer]
  refine ⟨heq, ?_⟩
  rw [heq] at h
  obtain ⟨b₁, hbuf, _, hsz, hc, _⟩ :=
    insert_ok abi al ctx b b.size (t.length + 1) _ (t ++ [0]) r hv (le_refl _) (by omega)
      (load_terminated t rest) (by simp) h herr
  refine ⟨b₁, hbuf, by omega, ?_⟩
  have hlen := content_length abi b hv
  rw [hc, List.take_of_length_le (by omega), List.drop_of_length_le (by omega)]
  simp

theorem append_string_is_insert_witness :
    (∀ c ∈ [104, 105], c ≠ 0) ∧ [104, 105].length + 1 < abi64.modulus
    ∧ libgb_append_string abi64 generous (some ctx0) (some fresh64) (some [104, 105, 0])
        = .ok ⟨LIBGB_ERROR_OK, some hi64, [Event.initializer 0 3]⟩
    ∧ hi64.size = 3
    ∧ (libgb_append_string abi64 generous (some ctx0) (some fresh64)
          (some ([104, 105] ++ 0 :: []))
        = libgb_insert_initialized abi64 generous (some ctx0) (some fresh64) fresh64.size
            ([104, 105].length + 1) (some (initialize_buffer (some ([104, 105] ++ 0 :: []))))
      ∧ ∃ b₁, some hi64 = some b₁ ∧ b₁.size = fresh64.size + [104, 105].length + 1
        ∧ content b₁ = content fresh64 ++ [104, 105] ++ [0]) :=
  ⟨by decide, by decide, rfl, rfl,
    append_string_is_insert abi64 generous ctx0 fresh64 [104, 105] []
      ⟨LIBGB_ERROR_OK, some hi64, [Event.initializer 0 3]⟩ ⟨_, rfl, by decide, by decide⟩
      (by decide) (by decide) rfl rfl⟩

/-! ## C17: the postcondition of `reserve` -/

/-- C17 at its failing input: `reserve` of 9 bytes on the fresh buffer (capacity 8) returns
`LIBGB_ERROR_OK` after exactly one reallocation to `16 = 8 * 2 ^ 1` bytes, but the capacity
field is still 8, below the required capacity. -/
theorem reserve_keeps_capacity_field :
    reserve abi64 generous (some ctx0) (some fresh64) 9
        = .ok ⟨LIBGB_ERROR_OK,
            some ⟨some [0, 0, 0, 0, 0, 0, 0, 0, 0, 0, 0, 0, 0, 0, 0, 0], 0, 8⟩,
            [Event.realloc 16 true]⟩
    ∧ fresh64.capacity = 8 ∧ ¬ 9 ≤ fresh64.capacity
    ∧ ¬ 9 ≤ (⟨some [0, 0, 0, 0, 0, 0, 0, 0, 0, 0, 0, 0, 0, 0, 0, 0], 0, 8⟩ : LibgbBuffer).capacity
    ∧ fresh64.capacity * 2 ^ 1 = 16 :=
  ⟨rfl, rfl, by decide, by decide, rfl⟩

/-! ## C18: the allocated block and the size -/

theorem reachable_dropped64 : Reachable abi64 dropped64 :=
  Reachable.drop ctx0 fresh64 1 ⟨LIBGB_ERROR_OK, some dropped64, []⟩ dropped64
    reachable_fresh64 (by decide) rfl rfl

/-- C18 at its failing inputs: for the reachable buffer of eight bytes, `reserve (0 + 1)`
succeeds and leaves a block of 8 bytes, fewer than the `size + block_size = 9` that the shift
of `libgb_insert_initialized` at offset 0 touches; and after `libgb_drop` of one byte from the
fresh buffer the reachable state has size `SIZE_MAX` in a block of 8 bytes. -/
theorem block_shorter_than_needed :
    Reachable abi64 full64
    ∧ (∃ r b₁, reserve abi64 generous (some ctx0) (some full64) (size_add abi64 0 1) = .ok r
        ∧ r.err = LIBGB_ERROR_OK ∧ r.buffer = some b₁
        ∧ ¬ full64.size + 1 ≤ block_length b₁)
    ∧ Reachable abi64 dropped64
    ∧ ¬ dropped64.size ≤ block_length dropped64 :=
  ⟨reachable_full64, ⟨⟨LIBGB_ERROR_OK, some full64, []⟩, full64, rfl, rfl, rfl, by decide⟩,
    reachable_dropped64, by decide⟩

/-! ## C19: the doubling loop -/

/-- C19 at its failing input: on the fresh buffer (capacity 8) with
`required_capacity = 2 ^ 63 + 1` the working value runs 8, 16, ..., `2 ^ 63`, then wraps to 0
and stays 0: the loop of `reserve` never stops, whatever the number of tests allowed, and
`libgb_insert_initialized` at offset 0 with that block size does not return. -/
theorem doubling_loop_diverges :
    Reachable abi64 fresh64
    ∧ 9223372036854775809 < abi64.modulus
    ∧ (∀ fuel, doubling abi64.modulus fuel fresh64.capacity 9223372036854775809 = none)
    ∧ reserve abi64 generous (some ctx0) (some fresh64) 9223372036854775809
        = .error Fault.non_termination
    ∧ libgb_insert_initialized abi64 generous (some ctx0) (some fresh64) 0 9223372036854775809
          (some (fun _ => .ok []))
        = .error Fault.non_termination :=
  ⟨reachable_fresh64, by decide, doubling_diverges abi64 _ _ (by rfl), by rfl, by rfl⟩

/-! ## C20: the abort branch -/

theorem memmove_not_aborted (p : Option Block) (dst src n : Nat) :
    memmove p dst src n ≠ .error Fault.aborted := by
  unfold memmove
  split
  · simp
  · split
    · simp
    · split <;> simp

theorem store_not_aborted (p : Option Block) (dst : Nat) (data : List Byte) :
    store p dst data ≠ .error Fault.aborted := by
  unfold store
  split
  · simp
  · split
    · simp
    · split <;> simp

theorem load_not_aborted (p : Option Block) (src n : Nat) :
    load p src n ≠ .error Fault.aborted := by
  unfold load
  split
  · simp
  · split
    · simp
    · split <;> simp

theorem strlen_not_aborted (s : List Byte) : strlen s ≠ .error Fault.aborted := by
  induction s with
  | nil => simp [strlen]
  | cons c cs ih =>
    unfold strlen
    split
    · simp
    · cases h : strlen cs with
      | error f =>
        simp only [ne_eq, Except.error.injEq]
        intro hf
        exact ih (by rw [h, hf])
      | ok n => simp

theorem reserve_result (abi : Abi) (al : Allocator) (ctx : Libgb) (b : LibgbBuffer) (req : Nat) :
    reserve abi al (some ctx) (some b) req ≠ .error Fault.aborted
      ∧ ∀ r, reserve abi al (some ctx) (some b) req = .ok r →
          r.err = LIBGB_ERROR_OK ∨ r.err = LIBGB_ERROR_OUT_OF_MEMORY := by
  unfold reserve
  simp only
  by_cases hreq : req ≤ b.capacity
  · simp only [hreq, if_true]
    refine ⟨by simp, ?_⟩
    intro r h
    simp only [Except.ok.injEq] at h
    subst h; exact Or.inl rfl
  · simp only [hreq, if_false]
    cases hd : doubling abi.modulus (abi.w + 1) b.capacity req with
    | none => simp
    | some k =>
      simp only
      cases hr : realloc al b.ptr k with
      | none =>
        simp only
        by_cases hk : k = 0
        · simp only [hk, ne_eq, not_true_eq_false, if_false]
          refine ⟨by simp, ?_⟩
          intro r h
          simp only [Except.ok.injEq] at h
          subst h; exact Or.inl rfl
        · simp only [ne_eq, hk, not_false_eq_true, if_true]
          refine ⟨by simp, ?_⟩
          intro r h
          simp only [Except.ok.injEq] at h
          subst h; exact Or.inr rfl
      | some q =>
        simp only
        refine ⟨by simp, ?_⟩
        intro r h
        simp only [Except.ok.injEq] at h
        subst h; exact Or.inl rfl

theorem destroy_into_result (al : Allocator) (ctx : Libgb) (handle : Option LibgbBuffer)
    (out_ok out_size_ok : Bool) :
    libgb_destroy_into al (some ctx) (some handle) out_ok out_size_ok ≠ .error Fault.aborted
      ∧ ∀ r, libgb_destroy_into al (some ctx) (some handle) out_ok out_size_ok = .ok r →
          r.err = LIBGB_ERROR_OK := by
  unfold libgb_destroy_into
  cases handle with
  | none =>
    refine ⟨by simp, ?_⟩
    intro r h
    simp only [Except.ok.injEq] at h
    subst h; rfl
  | some b =>
    simp only
    by_cases ho : out_ok = false ∨ out_size_ok = false
    · rw [if_pos ho]
      exact ⟨by simp, by intro r h; simp at h⟩
    · rw [if_neg ho]
      refine ⟨by simp, ?_⟩
      intro r h
      simp only [Except.ok.injEq] at h
      subst h; rfl

theorem destroy_not_aborted (al : Allocator) (libgb : Option Libgb)
    (buffer : Option (Option LibgbBuffer)) :
    libgb_destroy al libgb buffer ≠ .error Fault.aborted := by
  unfold libgb_destroy
  cases libgb with
  | none => simp
  | some ctx =>
    cases buffer with
    | none => simp
    | some handle =>
      simp only
      obtain ⟨h₁, h₂⟩ := destroy_into_result al ctx handle true true
      cases hd : libgb_destroy_into al (some ctx) (some handle) true true with
      | error f =>
        simp only [ne_eq, Except.error.injEq]
        intro hf
        exact h₁ (by rw [hd, hf])
      | ok r =>
        simp only [h₂ r hd, libgb_handle_internal_error]
        simp

theorem insert_not_aborted (abi : Abi) (al : Allocator) (libgb : Option Libgb)
    (buffer : Option LibgbBuffer) (offset n : Nat) (init : Option Initializer)
    (hinit : ∀ f, init = some f → f n ≠ .error Fault.aborted) :
    libgb_insert_initialized abi al libgb buffer offset n init ≠ .error Fault.aborted := by
  unfold libgb_insert_initialized
  cases libgb with
  | none => simp
  | some ctx =>
    cases buffer with
    | none => simp
    | some b =>
      cases init with
      | none => simp
      | some f =>
        have hf := hinit f rfl
        simp only
        by_cases hn : n = 0
        · simp [hn]
        · simp only [hn, if_false]
          by_cases hidx : b.size < offset
          · simp [hidx]
          · simp only [hidx, if_false]
            obtain ⟨h₁, h₂⟩ := reserve_result abi al ctx b (size_add abi offset n)
            cases hres : reserve abi al (some ctx) (some b) (size_add abi offset n) with
            | error e =>
              simp only [ne_eq, Except.error.injEq]
              intro he
              exact h₁ (by rw [hres, he])
            | ok r₀ =>
              simp only
              rcases h₂ r₀ hres with he | he
              · simp only [he, libgb_handle_internal_error]
                cases hb : r₀.buffer with
                | none => simp
                | some b₁ =>
                  simp only
                  cases hm : memmove b₁.ptr (offset + n) offset (size_sub abi b₁.size offset) with
                  | error e =>
                    simp only [ne_eq, Except.error.injEq]
                    intro he'
                    exact memmove_not_aborted _ _ _ _ (by rw [hm, he'])
                  | ok p₁ =>
                    simp only
                    cases hi : f n with
                    | error e =>
                      simp only [ne_eq, Except.error.injEq]
                      intro he'
                      exact hf (by rw [hi, he'])
                    | ok data =>
                      simp only
                      cases hs : store p₁ offset data with
                      | error e =>
                        simp only [ne_eq, Except.error.injEq]
                        intro he'
                        exact store_not_aborted _ _ _ (by rw [hs, he'])
                      | ok p₂ => simp
              · simp [he, libgb_handle_internal_error]

theorem append_buffer_not_aborted (abi : Abi) (al : Allocator) (libgb : Option Libgb)
    (buffer : Option LibgbBuffer) (bytes : Option (List Byte)) (n : Nat) :
    libgb_append_buffer abi al libgb buffer bytes n ≠ .error Fault.aborted := by
  unfold libgb_append_buffer
  cases buffer with
  | none => simp
  | some b =>
    simp only
    apply insert_not_aborted
    intro f hf
    cases hf
    exact load_not_aborted _ _ _

theorem append_string_not_aborted (abi : Abi) (al : Allocator) (libgb : Option Libgb)
    (buffer : Option LibgbBuffer) (string : Option (List Byte)) :
    libgb_append_string abi al libgb buffer string ≠ .error Fault.aborted := by
  unfold libgb_append_string
  cases string with
  | none => simp
  | some s =>
    simp only
    cases hl : strlen s with
    | error f =>
      simp only [ne_eq, Except.error.injEq]
      intro hf
      exact strlen_not_aborted s (by rw [hl, hf])
    | ok n => exact append_buffer_not_aborted _ _ _ _ _ _

theorem remove_not_aborted (abi : Abi) (libgb : Option Libgb) (buffer : Option LibgbBuffer)
    (offset n : Nat) : libgb_remove abi libgb buffer offset n ≠ .error Fault.aborted := by
  unfold libgb_remove
  cases libgb with
  | none => simp
  | some ctx =>
    cases buffer with
    | none => simp
    | some b =>
      simp only
      split
      · simp
      · split
        · simp
        · cases hm : memmove b.ptr offset (offset + n)
              (size_sub abi (size_sub abi b.size offset) n) with
          | error e =>
            simp only [ne_eq, Except.error.injEq]
            intro he
            exact memmove_not_aborted _ _ _ _ (by rw [hm, he])
          | ok p => simp

theorem drop_not_aborted (abi : Abi) (libgb : Option Libgb) (buffer : Option LibgbBuffer)
    (n : Nat) : libgb_drop abi libgb buffer n ≠ .error Fault.aborted := by
  unfold libgb_drop
  cases buffer with
  | none => simp
  | some b => exact remove_not_aborted _ _ _ _ _

theorem read_not_aborted (abi : Abi) (libgb : Option Libgb) (buffer : Option LibgbBuffer)
    (offset : Nat) (bytes : Option (List Byte)) (n : Nat) :
    libgb_read abi libgb buffer offset bytes n ≠ .error Fault.aborted := by
  unfold libgb_read
  cases libgb with
  | none => simp
  | some ctx =>
    cases buffer with
    | none => simp
    | some b =>
      simp only
      split
      · simp
      · split
        · simp
        · split
          · simp
          · cases hl : load b.ptr offset n with
            | error e =>
              simp only [ne_eq, Except.error.injEq]
              intro he
              exact load_not_aborted _ _ _ (by rw [hl, he])
            | ok data =>
              simp only
              cases hs : store bytes 0 data with
              | error e =>
                simp only [ne_eq, Except.error.injEq]
                intro he
                exact store_not_aborted _ _ _ (by rw [hs, he])
              | ok d => simp

theorem write_not_aborted (abi : Abi) (libgb : Option Libgb) (buffer : Option LibgbBuffer)
    (offset : Nat) (bytes : Option (List Byte)) (n : Nat) :
    libgb_write abi libgb buffer offset bytes n ≠ .error Fault.aborted := by
  unfold libgb_write
  cases libgb with
  | none => simp
  | some ctx =>
    cases buffer with
    | none => simp
    | some b =>
      simp only
      split
      · simp
      · split
        · simp
        · split
          · simp
          · cases hl : load bytes 0 n with
            | error e =>
              simp only [ne_eq, Except.error.injEq]
              intro he
              exact load_not_aborted _ _ _ (by rw [hl, he])
            | ok data =>
              simp only
              cases hs : store b.ptr offset data with
              | error e =>
                simp only [ne_eq, Except.error.injEq]
                intro he
                exact store_not_aborted _ _ _ (by rw [hs, he])
              | ok p => simp

/-- C20: the calls wrapped by `E` never return `LIBGB_ERROR_BAD_ARGUMENT` (`libgb_destroy_into`
inside `libgb_destroy` and `reserve` inside `libgb_insert_initialized` are only called with
non-null handles), so `libgb_destroy` and `libgb_insert_initialized` never reach `abort()`
(provided the caller's initializer does not itself abort), and neither does any other public
operation, for all arguments. -/
theorem abort_unreachable (abi : Abi) (al : Allocator) (libgb : Option Libgb)
    (buffer : Option LibgbBuffer) :
    (∀ ctx handle r, libgb_destroy_into al (some ctx) (some handle) true true = .ok r →
        r.err ≠ LIBGB_ERROR_BAD_ARGUMENT)
    ∧ (∀ ctx b req r, reserve abi al (some ctx) (some b) req = .ok r →
        r.err ≠ LIBGB_ERROR_BAD_ARGUMENT)
    ∧ (∀ handle, libgb_destroy al libgb handle ≠ .error Fault.aborted)
    ∧ (∀ offset n init, (∀ f, init = some f → f n ≠ .error Fault.aborted) →
        libgb_insert_initialized abi al libgb buffer offset n init ≠ .error Fault.aborted)
    ∧ (∀ bytes n, libgb_append_buffer abi al libgb buffer bytes n ≠ .error Fault.aborted)
    ∧ (∀ string, libgb_append_string abi al libgb buffer string ≠ .error Fault.aborted)
    ∧ (∀ c, libgb_append_char abi al libgb buffer c ≠ .error Fault.aborted)
    ∧ (∀ offset n, libgb_remove abi libgb buffer offset n ≠ .error Fault.aborted)
    ∧ (∀ n, libgb_drop abi libgb buffer n ≠ .error Fault.aborted)
    ∧ (∀ offset bytes n, libgb_read abi libgb buffer offset bytes n ≠ .error Fault.aborted)
    ∧ (∀ offset bytes n, libgb_write abi libgb buffer offset bytes n ≠ .error Fault.aborted) := by
  refine ⟨?_, ?_, ?_, ?_, ?_, ?_, ?_, ?_, ?_, ?_, ?_⟩
  · intro ctx handle r h
    rw [(destroy_into_result al ctx handle true true).2 r h]
    simp
  · intro ctx b req r h
    rcases (reserve_result abi al ctx b req).2 r h with he | he <;> rw [he] <;> simp
  · exact fun handle => destroy_not_aborted al libgb handle
  · exact fun offset n init hinit => insert_not_aborted abi al libgb buffer offset n init hinit
  · exact fun bytes n => append_buffer_not_aborted abi al libgb buffer bytes n
  · exact fun string => append_string_not_aborted abi al libgb buffer string
  · intro c
    unfold libgb_append_char
    exact append_buffer_not_aborted abi al libgb buffer _ _
  · exact fun offset n => remove_not_aborted abi libgb buffer offset n
  · exact fun n => drop_not_aborted abi libgb buffer n
  · exact fun offset bytes n => read_not_aborted abi libgb buffer offset bytes n
  · exact fun offset bytes n => write_not_aborted abi libgb buffer offset bytes n

theorem abort_unreachable_witness :
    libgb_destroy_into generous (some ctx0) (some (some hi64)) true true
        = .ok ⟨LIBGB_ERROR_OK, some none, some (some [104, 105, 0]), some 3,
            [Event.realloc 3 true]⟩
    ∧ LIBGB_ERROR_OK ≠ LIBGB_ERROR_BAD_ARGUMENT
    ∧ reserve abi64 stingy (some ctx0) (some fresh64) 9
        = .ok ⟨LIBGB_ERROR_OUT_OF_MEMORY, some fresh64, [Event.realloc 16 false]⟩
    ∧ LIBGB_ERROR_OUT_OF_MEMORY ≠ LIBGB_ERROR_BAD_ARGUMENT
    ∧ libgb_destroy generous (some ctx0) (some (some hi64)) ≠ .error Fault.aborted
    ∧ libgb_insert_initialized abi64 generous (some ctx0) (some fresh64) 0 1
        (some (fun _ => .ok [1])) ≠ .error Fault.aborted :=
  ⟨rfl,
    (abort_unreachable abi64 generous (some ctx0) (some fresh64)).1 ctx0 (some hi64)
      ⟨LIBGB_ERROR_OK, some none, some (some [104, 105, 0]), some 3, [Event.realloc 3 true]⟩ rfl,
    rfl,
    (abort_unreachable abi64 stingy (some ctx0) (some fresh64)).2.1 ctx0 fresh64 9
      ⟨LIBGB_ERROR_OUT_OF_MEMORY, some fresh64, [Event.realloc 16 false]⟩ rfl,
    (abort_unreachable abi64 generous (some ctx0) (some fresh64)).2.2.1 (some (some hi64)),
    (abort_unreachable abi64 generous (some ctx0) (some fresh64)).2.2.2.1 0 1
      (some (fun _ => .ok [1])) (by intro f hf; cases hf; simp)⟩

end GrowingBuffer
